import Mathlib

/-!
# dast-operator: scan orchestration and service reconciliation

A shallow embedding of

* `cmd/dynamic-analyzer/scanner.go` (`scanner`, `apiScanner`), and
* `controllers/service_controller.go` (`ServiceReconciler.Reconcile`).

The scanning engine (ZAP) is an external collaborator.  It is modelled as a
script of replies, one per call the analyzer can make; status replies are
indexed by the scan id they are asked about and by the number of the poll.
Every observable step of a run (engine calls, sleeps, output) is recorded in a
trace, and the two `for` loops are bounded by a fuel argument: a run that is
still polling when the fuel is used up has no outcome yet.
-/

namespace Scanner

/-! ## Engine replies -/

/-- A decoded JSON value, the dynamic type of a Go `interface{}` that comes
out of `json.Unmarshal`. -/
inductive Value where
  | str (s : String)
  | num (n : Int)
  | bool (b : Bool)
  | null
  deriving DecidableEq, Repr

/-- A Go `map[string]interface{}`.  The nil map is the empty list: indexing
either yields the nil interface. -/
abbrev Resp := List (String × Value)

/-- Go `error` values of the engine client, kept as their message. -/
abbrev Err := String

/-- Index expression `resp[key]`: the nil interface (`none`) when absent. -/
def index (resp : Resp) (key : String) : Option Value :=
  resp.lookup key

/-- Type assertion `v.(string)`.  `none` stands for the runtime panic raised
when the dynamic type is not `string` (the nil interface included). -/
def assertString : Option Value → Option String
  | some (Value.str s) => some s
  | _ => none

/-- Both results of a client call returning `(map[string]interface{}, error)`. -/
structure Reply where
  resp : Resp
  err : Option Err
  deriving DecidableEq, Repr

/-- Both results of `Core().Alerts`: `([]map[string]interface{}, error)`. -/
structure AlertsReply where
  alerts : List Resp
  err : Option Err
  deriving DecidableEq, Repr

/-- Both results of `Core().Urls`: `([]string, error)`. -/
structure UrlsReply where
  urls : List String
  err : Option Err
  deriving DecidableEq, Repr

/-! ## `strconv.Atoi` on a 64-bit platform -/

/-- Outcome class of a `strconv` conversion. -/
inductive NumError where
  | none
  | syntaxErr
  | rangeErr
  deriving DecidableEq, Repr

/-- The value of a decimal digit, `none` for any other character. -/
def digitVal (c : Char) : Option Nat :=
  if 48 ≤ c.toNat ∧ c.toNat ≤ 57 then some (c.toNat - 48) else none

def maxUint64 : Nat := 2 ^ 64 - 1

/-- The digit loop of `strconv.ParseUint(s, 10, 64)`; it returns at the first
bad character or at the first overflow, whichever comes first. -/
def parseUintLoop : List Char → Nat → Nat × NumError
  | [], n => (n, NumError.none)
  | c :: cs, n =>
    match digitVal c with
    | Option.none => (0, NumError.syntaxErr)
    | some d =>
      if n ≥ maxUint64 / 10 + 1 then (maxUint64, NumError.rangeErr)
      else if n * 10 + d > maxUint64 then (maxUint64, NumError.rangeErr)
      else parseUintLoop cs (n * 10 + d)

/-- `strconv.ParseUint(s, 10, 64)`. -/
def ParseUint (s : List Char) : Nat × NumError :=
  match s with
  | [] => (0, NumError.syntaxErr)
  | _ => parseUintLoop s 0

/-- `strconv.ParseInt(s, 10, 0)` with `int` of 64 bits. -/
def ParseInt (s : List Char) : Int × NumError :=
  match s with
  | [] => (0, NumError.syntaxErr)
  | c :: cs =>
    let neg := c = '-'
    let body := if c = '+' ∨ c = '-' then cs else s
    match ParseUint body with
    | (_, NumError.syntaxErr) => (0, NumError.syntaxErr)
    | (un, _) =>
      if ¬ neg ∧ un ≥ 2 ^ 63 then ((2 : Int) ^ 63 - 1, NumError.rangeErr)
      else if neg ∧ un > 2 ^ 63 then (-(2 : Int) ^ 63, NumError.rangeErr)
      else (if neg then -(un : Int) else (un : Int), NumError.none)

/-- The fast path of `strconv.Atoi`, taken for inputs of 1 to 18 bytes. -/
def atoiFast (s : List Char) : Int × NumError :=
  match s with
  | [] => (0, NumError.syntaxErr)
  | c :: cs =>
    let body := if c = '-' ∨ c = '+' then cs else s
    if (c = '-' ∨ c = '+') ∧ body.length < 1 then (0, NumError.syntaxErr)
    else
      match body.foldl
          (fun (acc : Option Nat) ch => acc.bind (fun n => (digitVal ch).map (fun d => n * 10 + d)))
          (some 0) with
      | Option.none => (0, NumError.syntaxErr)
      | some n => (if c = '-' then -(n : Int) else (n : Int), NumError.none)

/-- `strconv.Atoi`. -/
def Atoi (s : String) : Int × NumError :=
  if 0 < s.utf8ByteSize ∧ s.utf8ByteSize < 19 then atoiFast s.toList
  else ParseInt s.toList

/-! ## The engine, the command-line flags and the trace of a run -/

/-- The package-level flag variables read by the two commands. -/
structure Flags where
  zapAddr : String
  target : String
  apiKey : String
  serve : Bool
  openapiURL : String
  deriving DecidableEq, Repr

/-- The replies the engine gives during one run.  `spiderStatus id k` is the
reply to poll number `k` (from 0) of `Spider().Status(id)`, and likewise
`ascanStatus`.  `newClient` is the error of `zap.NewClient`, if any. -/
structure Engine where
  newClient : Option Err
  spiderScan : String → Reply
  spiderStatus : String → Nat → Reply
  ascanScan : String → Reply
  ascanStatus : String → Nat → Reply
  alerts : String → AlertsReply
  alertsSummary : String → Reply
  scriptLoad : String → Reply
  scriptEnable : String → Reply
  importUrl : String → String → Reply
  urls : String → UrlsReply

/-- The calls on the engine client, with the arguments that vary. -/
inductive Call where
  | spiderScan (target : String)
  | spiderStatus (scanid : String)
  | ascanScan (target : String)
  | ascanStatus (scanid : String)
  | alerts (target : String)
  | alertsSummary (target : String)
  | scriptLoad (name : String)
  | scriptEnable (name : String)
  | importUrl (url target : String)
  | urls (target : String)
  deriving DecidableEq, Repr

/-- One observable step of a run. -/
inductive Event where
  | call (c : Call)
  | sleep (ms : Nat)
  | println (s : String)
  | printProgress (label : String) (progress : Int)
  | printAlerts (alerts : List Resp)
  | printSummary (summary : Resp)
  | logPrint (s : String)
  | serveResults (alerts : List Resp)
  deriving DecidableEq, Repr

/-- How a run ends: normal return, `log.Fatal(err)`, or a runtime panic. -/
inductive Outcome where
  | done (alerts : List Resp) (summary : Resp)
  | fatal (err : Err)
  | panicked
  deriving DecidableEq, Repr

/-- A run: what it did, and how it ended (`none`: still polling when the fuel
ran out). -/
structure Run where
  trace : List Event
  result : Option Outcome
  deriving DecidableEq, Repr

/-- How a polling loop stops within the fuel given. -/
inductive PollEnd where
  | exited
  | panicked
  | pending
  deriving DecidableEq, Repr

/-- The progress a status reply is read as: `strconv.Atoi` of its `status`
string with the conversion error dropped, `none` when the type assertion
panics. -/
def progressOf (r : Reply) : Option Int :=
  (assertString (index r.resp "status")).map (fun s => (Atoi s).1)

/-- The polling loop shared by the three phases
(`scanner` lines 97-104 and 117-125, `apiScanner` lines 184-192):
sleep, ask for the status (its error is dropped), convert it, print it when the
phase has a label, leave when it is at least 100.  `k` is the number of the
next poll. -/
def poll (ms : Nat) (c : Call) (status : Nat → Reply) (label : Option String) :
    Nat → Nat → List Event × PollEnd
  | 0, _ => ([], PollEnd.pending)
  | fuel + 1, k =>
    match progressOf (status k) with
    | none => ([Event.sleep ms, Event.call c], PollEnd.panicked)
    | some progress =>
      let out : List Event :=
        match label with
        | some l => [Event.printProgress l progress]
        | none => []
      if progress ≥ 100 then
        (Event.sleep ms :: Event.call c :: out, PollEnd.exited)
      else
        let rest := poll ms c status label fuel (k + 1)
        (Event.sleep ms :: Event.call c :: out ++ rest.1, rest.2)

/-- Lines 126-144 of `scanner`: collect the alerts and the summary, print
them, serve them when asked.  `json.Marshal` does not fail on decoded JSON. -/
def collect (f : Flags) (e : Engine) (label : String) (serving : Bool) : Run :=
  let t0 := [Event.println label, Event.println "Alerts:", Event.call (Call.alerts f.target)]
  match (e.alerts f.target).err with
  | some err => ⟨t0, some (Outcome.fatal err)⟩
  | none =>
    let t1 := t0 ++ [Event.call (Call.alertsSummary f.target)]
    match (e.alertsSummary f.target).err with
    | some err => ⟨t1, some (Outcome.fatal err)⟩
    | none =>
      let alerts := (e.alerts f.target).alerts
      let summary := (e.alertsSummary f.target).resp
      let t2 := t1 ++ [Event.printAlerts alerts, Event.printSummary summary]
      ⟨if serving ∧ f.serve then t2 ++ [Event.serveResults alerts] else t2,
        some (Outcome.done alerts summary)⟩

/-- Lines 110-125 (`scanner`) and 178-192 (`apiScanner`): start the active
scan, take its id, poll it, then collect. -/
def activeScan (fuel : Nat) (f : Flags) (e : Engine) (label done : String)
    (serving : Bool) : Run :=
  let t0 := [Event.call (Call.ascanScan f.target)]
  match (e.ascanScan f.target).err with
  | some err => ⟨t0, some (Outcome.fatal err)⟩
  | none =>
    match assertString (index (e.ascanScan f.target).resp "scan") with
    | none => ⟨t0, some Outcome.panicked⟩
    | some scanid =>
      match poll 5000 (Call.ascanStatus scanid) (e.ascanStatus scanid) (some label) fuel 0 with
      | (t, PollEnd.pending) => ⟨t0 ++ t, none⟩
      | (t, PollEnd.panicked) => ⟨t0 ++ t, some Outcome.panicked⟩
      | (t, PollEnd.exited) =>
        let r := collect f e done serving
        ⟨t0 ++ t ++ r.trace, r.result⟩

/-- The crawl-driven run, `scanner()`. -/
def scanner (fuel : Nat) (f : Flags) (e : Engine) : Run :=
  match e.newClient with
  | some err => ⟨[], some (Outcome.fatal err)⟩
  | none =>
    let t0 := [Event.println ("Spider : " ++ f.target), Event.call (Call.spiderScan f.target)]
    match (e.spiderScan f.target).err with
    | some err => ⟨t0, some (Outcome.fatal err)⟩
    | none =>
      match assertString (index (e.spiderScan f.target).resp "scan") with
      | none => ⟨t0, some Outcome.panicked⟩
      | some scanid =>
        match poll 1000 (Call.spiderStatus scanid) (e.spiderStatus scanid) none fuel 0 with
        | (t, PollEnd.pending) => ⟨t0 ++ t, none⟩
        | (t, PollEnd.panicked) => ⟨t0 ++ t, some Outcome.panicked⟩
        | (t, PollEnd.exited) =>
          let t1 := t0 ++ t ++ [Event.println "Spider complete", Event.sleep 2000,
            Event.println ("Active scan : " ++ f.target)]
          let r := activeScan fuel f e "Active Scan progress" "Active Scan complete" true
          ⟨t1 ++ r.trace, r.result⟩

/-- The two scripts `apiScanner` loads and enables, in order. -/
def scripts : List String :=
  ["Alert_on_HTTP_Response_Code_Errors.js", "Alert_on_Unexpected_Content_Types.js"]

/-- The specification-driven run, `apiScanner()`. -/
def apiScanner (fuel : Nat) (f : Flags) (e : Engine) : Run :=
  match e.newClient with
  | some err => ⟨[], some (Outcome.fatal err)⟩
  | none =>
    let t0 := Event.println "Loading scripsts..." ::
      (scripts.flatMap fun s => [Event.call (Call.scriptLoad s), Event.call (Call.scriptEnable s)])
      ++ [Event.println "Importing openapi URL...",
          Event.call (Call.importUrl f.openapiURL f.target)]
    match (e.importUrl f.openapiURL f.target).err with
    | some err => ⟨t0, some (Outcome.fatal err)⟩
    | none =>
      let t1 := t0 ++ [Event.call (Call.urls f.target)]
      match (e.urls f.target).err with
      | some err => ⟨t1, some (Outcome.fatal err)⟩
      | none =>
        let t2 := if (e.urls f.target).urls.length = 0
          then t1 ++ [Event.logPrint "Failed to import any URLs"] else t1
        let r := activeScan fuel f e "Active API Scan progress" "Active API Scan complete" false
        ⟨t2 ++ r.trace, r.result⟩

/-- The engine calls of a trace, in order. -/
def engineCalls : List Event → List Call
  | [] => []
  | Event.call c :: t => c :: engineCalls t
  | _ :: t => engineCalls t

/-! ## Scenario engines -/

def statusReply (s : String) : Reply := ⟨[("status", Value.str s)], none⟩
def scanReply (id : String) : Reply := ⟨[("scan", Value.str id)], none⟩

def demoFlags : Flags := ⟨"http://127.0.0.1:8080", "http://t", "key", false, "http://t/swagger.yaml"⟩

/-- Spider progress 0, 40, 100, active progress 0, 50, 100, one High and one
Medium alert. -/
def demoEngine : Engine where
  newClient := none
  spiderScan := fun _ => scanReply "0"
  spiderStatus := fun _ k => statusReply (if k = 0 then "0" else if k = 1 then "40" else "100")
  ascanScan := fun _ => scanReply "1"
  ascanStatus := fun _ k => statusReply (if k = 0 then "0" else if k = 1 then "50" else "100")
  alerts := fun _ => ⟨[[("risk", Value.str "High")], [("risk", Value.str "Medium")]], none⟩
  alertsSummary := fun _ => ⟨[("High", Value.num 1), ("Medium", Value.num 1)], none⟩
  scriptLoad := fun _ => ⟨[], none⟩
  scriptEnable := fun _ => ⟨[], none⟩
  importUrl := fun _ _ => ⟨[], none⟩
  urls := fun _ => ⟨["http://t/a"], none⟩

/-! ## Reading a polling phase -/

/-- The first `n` polls from number `k` on all read a progress below 100. -/
def Below (status : Nat → Reply) (k n : Nat) : Prop :=
  ∀ j, j < n → ∃ p, progressOf (status (k + j)) = some p ∧ p < 100

/-- What `n` rounds of the polling loop from poll `k` on leave in the trace. -/
def pollSteps (ms : Nat) (c : Call) (status : Nat → Reply) (label : Option String) :
    Nat → Nat → List Event
  | 0, _ => []
  | n + 1, k =>
    Event.sleep ms :: Event.call c ::
      ((match label, progressOf (status k) with
        | some l, some p => [Event.printProgress l p]
        | _, _ => []) ++ pollSteps ms c status label n (k + 1))

/-- What a run's trace shows about entering the collection phase:
`FetchAlerts` occurs at most once, and where it occurs it comes right after the
`m + 1` whole rounds of an active-scan polling loop whose first `m` polls read
less than 100 and whose last poll read 100 or more (and the two lines printed
on leaving the loop). -/
def CollectsAfter100 (f : Flags) (e : Engine) (tr : List Event) : Prop :=
  ∀ pre post, tr = pre ++ Event.call (Call.alerts f.target) :: post →
    Event.call (Call.alerts f.target) ∉ pre ∧ Event.call (Call.alerts f.target) ∉ post ∧
    ∃ aid m q init label done,
      assertString (index (e.ascanScan f.target).resp "scan") = some aid ∧
      Below (e.ascanStatus aid) 0 m ∧ progressOf (e.ascanStatus aid m) = some q ∧ 100 ≤ q ∧
      pre = init ++ Event.call (Call.ascanScan f.target) ::
        pollSteps 5000 (Call.ascanStatus aid) (e.ascanStatus aid) (some label) (m + 1) 0 ++
          [Event.println done, Event.println "Alerts:"]

/-- A status reply that came with an error and the nil map, as the client
returns when the engine cannot be reached. -/
def failedReply (msg : String) : Reply := ⟨[], some msg⟩

/-- The scenario engine, except that every spider status call fails. -/
def spiderStatusFails : Engine :=
  { demoEngine with spiderStatus := fun _ _ => failedReply "connection refused" }

/-- The scenario engine, except that every active-scan status call fails. -/
def ascanStatusFails : Engine :=
  { demoEngine with ascanStatus := fun _ _ => failedReply "connection refused" }

/-- The scenario engine, except that the spider never gets past 0. -/
def stuckSpider : Engine :=
  { demoEngine with spiderStatus := fun _ _ => statusReply "0" }

/-- The scenario engine, except that the active scan never gets past 0. -/
def stuckAscan : Engine :=
  { demoEngine with ascanStatus := fun _ _ => statusReply "0" }

/-- The scenario engine, except that no URL is known for the target. -/
def noUrls : Engine :=
  { demoEngine with urls := fun _ => ⟨[], none⟩ }

/-- The scenario engine, except that the spider start reply carries no scan id. -/
def noScanId : Engine :=
  { demoEngine with spiderScan := fun _ => ⟨[("code", Value.str "bad_request")], none⟩ }

/-- The scenario engine, except that StartSpider fails. -/
def spiderUnavailable : Engine :=
  { demoEngine with spiderScan := fun _ => failedReply "EngineUnavailable" }

/-- The scenario engine, except that the first spider status is not a number. -/
def garbledStatus : Engine :=
  { demoEngine with
    spiderStatus := fun _ k => statusReply (if k = 0 then "n/a" else "100") }

/-- An engine that answers `Core().Urls` with the list `us` and no error, and
everything else as `e` does. -/
def withUrls (e : Engine) (us : List String) : Engine :=
  { e with urls := fun _ => ⟨us, none⟩ }

/-- An engine whose status replies carry the same maps as those of `e` and no
error. -/
def withoutStatusErrors (e : Engine) : Engine :=
  { e with
    spiderStatus := fun id k => ⟨(e.spiderStatus id k).resp, none⟩
    ascanStatus := fun id k => ⟨(e.ascanStatus id k).resp, none⟩ }

end Scanner

namespace Controllers

/-! ## `ServiceReconciler.Reconcile` -/

/-- A Go `error` of the API client, with the answer of `apierrors.IsNotFound`. -/
structure ApiError where
  msg : String
  isNotFound : Bool
  deriving DecidableEq, Repr

/-- The value `ctrl.Result`. -/
structure Result where
  Requeue : Bool
  RequeueAfter : Nat
  deriving DecidableEq, Repr

/-- The request `ctrl.Request`: a namespaced name. -/
structure Request where
  ns : String
  name : String
  deriving DecidableEq, Repr

/-- The fields of `corev1.Service` that `Reconcile` reads. -/
structure Service where
  name : String
  spec : String
  deriving DecidableEq, Repr

/-- A Go `map[string]string`; a missing key reads as the empty string. -/
def cfgGet (cfg : List (String × String)) (key : String) : String :=
  (cfg.lookup key).getD ""

/-- The value `securityv1alpha1.Dast` built at lines 67-83. -/
structure Dast where
  name : String
  ns : String
  zaProxyName : String
  analyzerImage : String
  analyzerName : String
  analyzerTarget : String
  analyzerService : Service
  deriving DecidableEq, Repr

/-- The interface `resources.ComponentReconciler`: `Reconcile(log) error`,
acting on the cluster state `σ`.  `id` names the component in the record of
invocations. -/
structure ComponentReconciler (σ : Type) where
  id : String
  Reconcile : σ → Option ApiError × σ

/-- The reconciler with its collaborators, none of which is in this file:
`Get` is the embedded `client.Client`, `GetServiceAnotations` and
`GetTargetService` are `k8sutil`, and `reconcilers` is the slice built at lines
85-87 (in the source the single `analyzer.New(r.Client, &ann)`). -/
structure ServiceReconciler (σ : Type) where
  Get : σ → Request → Except ApiError Service
  GetServiceAnotations : Service → Except ApiError (List (String × String))
  GetTargetService : Service → String
  reconcilers : Dast → List (ComponentReconciler σ)

/-- What one call of `Reconcile` returns and does: both results, the
components whose `Reconcile` was called, in order, and the cluster state left. -/
structure Outcome (σ : Type) where
  result : Result
  err : Option ApiError
  invoked : List String
  state : σ

/-- The loop of lines 89-94: call each component in turn, stop at the first
error. -/
def reconcileLoop {σ : Type} :
    List (ComponentReconciler σ) → σ → Option ApiError × List String × σ
  | [], s => (none, [], s)
  | rec :: rest, s =>
    match rec.Reconcile s with
    | (some err, s1) => (some err, [rec.id], s1)
    | (none, s1) =>
      let r := reconcileLoop rest s1
      (r.1, rec.id :: r.2.1, r.2.2)

/-- The value `ann` built at lines 67-83 from the service and its resolved
annotations. -/
def mkDast {σ : Type} (r : ServiceReconciler σ) (service : Service)
    (zaProxyCfg : List (String × String)) : Dast :=
  { name := service.name
    ns := cfgGet zaProxyCfg "namespace"
    zaProxyName := cfgGet zaProxyCfg "name"
    analyzerImage := cfgGet zaProxyCfg "analyzer_image"
    analyzerName := service.name
    analyzerTarget := r.GetTargetService service
    analyzerService := service }

/-- The method `ServiceReconciler.Reconcile`. -/
def Reconcile {σ : Type} (r : ServiceReconciler σ) (s : σ) (req : Request) : Outcome σ :=
  match r.Get s req with
  | Except.error err =>
    if err.isNotFound then ⟨⟨false, 0⟩, none, [], s⟩
    else ⟨⟨false, 0⟩, some err, [], s⟩
  | Except.ok service =>
    match r.GetServiceAnotations service with
    | Except.error _ => ⟨⟨false, 0⟩, none, [], s⟩
    | Except.ok zaProxyCfg =>
      let ann : Dast := mkDast r service zaProxyCfg
      let out := reconcileLoop (r.reconcilers ann) s
      ⟨⟨false, 0⟩, out.1, out.2.1, out.2.2⟩

/-- Each component of the list, called on the state its predecessor left,
returns no error; `s` is the state before the first call and `s1` the state
after the last.  This speaks of the components' own `Reconcile` only. -/
def Succeeds {σ : Type} : List (ComponentReconciler σ) → σ → σ → Prop
  | [], s, s1 => s1 = s
  | c :: rest, s, s1 => ∃ s0, c.Reconcile s = (none, s0) ∧ Succeeds rest s0 s1

/-! ### A small cluster -/

/-- A component that counts its calls in the state and fails when told to. -/
def counting (id : String) (fails : Bool) : ComponentReconciler Nat :=
  ⟨id, fun n => (if fails then some ⟨id ++ " failed", false⟩ else none, n + 1)⟩

/-- A cluster with one annotated service `web`, one service `plain` without
annotations, an unreachable `down`, and three components of which the second
fails. -/
def demoReconciler : ServiceReconciler Nat where
  Get := fun _ req =>
    if req.name = "web" then Except.ok ⟨"web", "ClusterIP"⟩
    else if req.name = "plain" then Except.ok ⟨"plain", "ClusterIP"⟩
    else if req.name = "down" then Except.error ⟨"timeout", false⟩
    else Except.error ⟨"not found", true⟩
  GetServiceAnotations := fun svc =>
    if svc.name = "web" then
      Except.ok [("namespace", "zap"), ("name", "proxy"), ("analyzer_image", "img")]
    else Except.error ⟨"missing annotations", false⟩
  GetTargetService := fun svc => "http://" ++ svc.name
  reconcilers := fun _ => [counting "a" false, counting "b" true, counting "c" false]

end Controllers

namespace Scanner

theorem Below.zero (status : Nat → Reply) (k : Nat) : Below status k 0 := by
  intro j hj
  exact absurd hj (Nat.not_lt_zero j)

theorem Below.cons {status : Nat → Reply} {k n : Nat} {p : Int}
    (h0 : progressOf (status k) = some p) (hp : p < 100) (h : Below status (k + 1) n) :
    Below status k (n + 1) := by
  intro j hj
  cases j with
  | zero => exact ⟨p, by simpa using h0, hp⟩
  | succ j =>
    obtain ⟨q, hq, hq100⟩ := h j (by omega)
    exact ⟨q, by rw [← hq]; congr 2; omega, hq100⟩

theorem Below.tail {status : Nat → Reply} {k n : Nat} (h : Below status k (n + 1)) :
    Below status (k + 1) n := by
  intro j hj
  obtain ⟨q, hq, hq100⟩ := h (j + 1) (by omega)
  exact ⟨q, by rw [← hq]; congr 2; omega, hq100⟩

theorem Below.head {status : Nat → Reply} {k n : Nat} (h : Below status k (n + 1)) :
    ∃ p, progressOf (status k) = some p ∧ p < 100 := by
  simpa using h 0 (by omega)

/-- The loop, read off in full: how it stops, after how many polls, and the
trace it leaves. -/
theorem poll_spec (ms : Nat) (c : Call) (status : Nat → Reply) (label : Option String) :
    ∀ fuel k,
      (∃ n p, n < fuel ∧ Below status k n ∧ progressOf (status (k + n)) = some p ∧ 100 ≤ p ∧
          poll ms c status label fuel k = (pollSteps ms c status label (n + 1) k, PollEnd.exited)) ∨
      (∃ n, n < fuel ∧ Below status k n ∧ progressOf (status (k + n)) = none ∧
          poll ms c status label fuel k = (pollSteps ms c status label (n + 1) k, PollEnd.panicked)) ∨
      (Below status k fuel ∧
          poll ms c status label fuel k = (pollSteps ms c status label fuel k, PollEnd.pending)) := by
  intro fuel
  induction fuel with
  | zero =>
    intro k
    exact Or.inr (Or.inr ⟨Below.zero status k, rfl⟩)
  | succ fuel ih =>
    intro k
    cases hp : progressOf (status k) with
    | none =>
      refine Or.inr (Or.inl ⟨0, by omega, Below.zero status k, by simpa using hp, ?_⟩)
      cases label <;> simp [poll, pollSteps, hp]
    | some p =>
      by_cases h100 : 100 ≤ p
      · refine Or.inl ⟨0, p, by omega, Below.zero status k, by simpa using hp, h100, ?_⟩
        cases label <;> simp [poll, pollSteps, hp, h100]
      · have hlt : p < 100 := by omega
        rcases ih (k + 1) with ⟨n, q, hn, hb, hq, hq100, he⟩ | ⟨n, hn, hb, hq, he⟩ | ⟨hb, he⟩
        · refine Or.inl ⟨n + 1, q, by omega, Below.cons hp hlt hb, ?_, hq100, ?_⟩
          · rw [← hq]; congr 2; omega
          · cases label <;> simp [poll, pollSteps, hp, h100, he]
        · refine Or.inr (Or.inl ⟨n + 1, by omega, Below.cons hp hlt hb, ?_, ?_⟩)
          · rw [← hq]; congr 2; omega
          · cases label <;> simp [poll, pollSteps, hp, h100, he]
        · refine Or.inr (Or.inr ⟨Below.cons hp hlt hb, ?_⟩)
          cases label <;> simp [poll, pollSteps, hp, h100, he]

/-- Forward reading: progress below 100 for `n` polls and at least 100 at the
next one makes the loop leave there, whatever fuel is left over. -/
theorem poll_exits (ms : Nat) (c : Call) (status : Nat → Reply) (label : Option String) :
    ∀ n fuel k p, n < fuel → Below status k n → progressOf (status (k + n)) = some p → 100 ≤ p →
      poll ms c status label fuel k = (pollSteps ms c status label (n + 1) k, PollEnd.exited) := by
  intro n
  induction n with
  | zero =>
    intro fuel k p hf _ hp h100
    obtain ⟨fuel, rfl⟩ : ∃ m, fuel = m + 1 := ⟨fuel - 1, by omega⟩
    have hp0 : progressOf (status k) = some p := by simpa using hp
    cases label <;> simp [poll, pollSteps, hp0, h100]
  | succ n ih =>
    intro fuel k p hf hb hp h100
    obtain ⟨fuel, rfl⟩ : ∃ m, fuel = m + 1 := ⟨fuel - 1, by omega⟩
    obtain ⟨q, hq, hq100⟩ := hb.head
    have hnot : ¬ 100 ≤ q := by omega
    have hp1 : progressOf (status (k + 1 + n)) = some p := by
      rw [← hp]; congr 2; omega
    have he := ih fuel (k + 1) p (by omega) hb.tail hp1 h100
    cases label <;> simp [poll, pollSteps, hq, hnot, he]

/-- Progress below 100 at every poll keeps the loop going as long as there is
fuel. -/
theorem poll_pending (ms : Nat) (c : Call) (status : Nat → Reply) (label : Option String) :
    ∀ fuel k, Below status k fuel →
      poll ms c status label fuel k = (pollSteps ms c status label fuel k, PollEnd.pending) := by
  intro fuel
  induction fuel with
  | zero => intro k _; rfl
  | succ fuel ih =>
    intro k hb
    obtain ⟨q, hq, hq100⟩ := hb.head
    have hnot : ¬ 100 ≤ q := by omega
    have he := ih (k + 1) hb.tail
    cases label <;> simp [poll, pollSteps, hq, hnot, he]

theorem mem_pollSteps (ms : Nat) (c : Call) (status : Nat → Reply) (label : Option String)
    (ev : Event) : ∀ n k, ev ∈ pollSteps ms c status label n k →
      ev = Event.sleep ms ∨ ev = Event.call c ∨ ∃ l p, ev = Event.printProgress l p := by
  intro n
  induction n with
  | zero => intro k h; simp [pollSteps] at h
  | succ n ih =>
    intro k h
    simp only [pollSteps, List.mem_cons, List.mem_append] at h
    rcases h with h | h | h | h
    · exact Or.inl h
    · exact Or.inr (Or.inl h)
    · right; right
      cases label <;> cases hp : progressOf (status k) <;> simp [hp] at h
      exact ⟨_, _, h⟩
    · exact ih (k + 1) h

theorem engineCalls_append (a b : List Event) :
    engineCalls (a ++ b) = engineCalls a ++ engineCalls b := by
  induction a with
  | nil => rfl
  | cons x a ih => cases x <;> simp [engineCalls, ih]

theorem engineCalls_pollSteps (ms : Nat) (c : Call) (status : Nat → Reply)
    (label : Option String) : ∀ n k,
      engineCalls (pollSteps ms c status label n k) = List.replicate n c := by
  intro n
  induction n with
  | zero => intro k; rfl
  | succ n ih =>
    intro k
    cases label <;> cases hp : progressOf (status k) <;>
      simp [pollSteps, engineCalls, hp, ih, List.replicate_succ]

end Scanner

namespace Controllers

/-! ## The reconciliation loop -/

/-- Components that all succeed are all called, and the loop returns no
error. -/
theorem reconcileLoop_ok {σ : Type} (recs : List (ComponentReconciler σ)) :
    ∀ s s1 : σ, Succeeds recs s s1 →
      reconcileLoop recs s = (none, recs.map (fun c => c.id), s1) := by
  induction recs with
  | nil =>
    intro s s1 h
    simp only [Succeeds] at h
    simp [reconcileLoop, h]
  | cons c rest ih =>
    intro s s1 h
    obtain ⟨s0, hc, hrest⟩ := h
    simp [reconcileLoop, hc, ih s0 s1 hrest]

/-- A component that fails after the ones before it succeeded stops the loop:
its error is returned and nothing after it is called. -/
theorem reconcileLoop_fail {σ : Type} (pre : List (ComponentReconciler σ))
    (rec : ComponentReconciler σ) (post : List (ComponentReconciler σ)) (err : ApiError)
    (s1 s2 : σ) (hrec : rec.Reconcile s1 = (some err, s2)) :
    ∀ s, Succeeds pre s s1 →
      reconcileLoop (pre ++ rec :: post) s = (some err, pre.map (fun c => c.id) ++ [rec.id], s2) := by
  induction pre with
  | nil =>
    intro s hall
    simp only [Succeeds] at hall
    subst hall
    simp [reconcileLoop, hrec]
  | cons c rest ih =>
    intro s hall
    obtain ⟨s0, hc, hrest⟩ := hall
    simp [reconcileLoop, hc, ih s0 hrest]

/-- Every list of components either succeeds as a whole, or has a first
component that fails after the ones before it succeeded. -/
theorem succeeds_or_first_failure {σ : Type} (recs : List (ComponentReconciler σ)) :
    ∀ s : σ, (∃ s1, Succeeds recs s s1) ∨
      ∃ pre rec post err s1 s2, recs = pre ++ rec :: post ∧ Succeeds pre s s1 ∧
        rec.Reconcile s1 = (some err, s2) := by
  induction recs with
  | nil =>
    intro s
    exact Or.inl ⟨s, rfl⟩
  | cons c rest ih =>
    intro s
    rcases hc : c.Reconcile s with ⟨_ | err, s0⟩
    · rcases ih s0 with ⟨s1, h⟩ | ⟨pre, rec, post, err, s1, s2, hsplit, hall, hrec⟩
      · exact Or.inl ⟨s1, s0, hc, h⟩
      · exact Or.inr ⟨c :: pre, rec, post, err, s1, s2, by simp [hsplit], ⟨s0, hc, hall⟩, hrec⟩
    · exact Or.inr ⟨[], c, rest, err, s, s0, rfl, rfl, hc⟩

/-- Claim C8.  When the service is fetched and `GetServiceAnotations` returns an
error, `Reconcile` returns the empty result and a nil error, calls no
component and leaves the cluster as it was. -/
theorem Reconcile_missing_annotations {σ : Type} (r : ServiceReconciler σ) (s : σ)
    (req : Request) (service : Service) (e : ApiError)
    (hget : r.Get s req = Except.ok service)
    (hann : r.GetServiceAnotations service = Except.error e) :
    (Reconcile r s req).result = ⟨false, 0⟩ ∧ (Reconcile r s req).err = none ∧
      (Reconcile r s req).invoked = [] ∧ (Reconcile r s req).state = s := by
  simp [Reconcile, hget, hann]

/-- The service `plain` of the small cluster has no annotations: reconciling
it succeeds and calls none of the three components. -/
theorem Reconcile_missing_annotations_witness :
    (Reconcile demoReconciler 0 ⟨"default", "plain"⟩).result = ⟨false, 0⟩ ∧
      (Reconcile demoReconciler 0 ⟨"default", "plain"⟩).err = none ∧
      (Reconcile demoReconciler 0 ⟨"default", "plain"⟩).invoked = [] ∧
      (Reconcile demoReconciler 0 ⟨"default", "plain"⟩).state = 0 :=
  Reconcile_missing_annotations demoReconciler 0 ⟨"default", "plain"⟩ ⟨"plain", "ClusterIP"⟩
    ⟨"missing annotations", false⟩ rfl rfl

/-- Claim C9.  `Reconcile` always returns the empty result.  A failed fetch
calls no component and returns the fetch error, unless that error is NotFound,
in which case it returns nil.  When the service is fetched and its annotations
resolve: if a component of the list fails after the ones before it succeeded,
`Reconcile` returns that component's error, having called the ones before it
and itself and none after it; if every component succeeds, `Reconcile` returns
nil, having called them all.  Hence `Reconcile` returns an error exactly when
the fetch fails with that error and it is not NotFound, or the service is
fetched, its annotations resolve and that error is the one of the first
failing component. -/
theorem Reconcile_error_iff {σ : Type} (r : ServiceReconciler σ) (s : σ) (req : Request) :
    (Reconcile r s req).result = ⟨false, 0⟩ ∧
    (∀ err, r.Get s req = Except.error err →
      (Reconcile r s req).invoked = [] ∧ (Reconcile r s req).state = s ∧
      (Reconcile r s req).err = if err.isNotFound then none else some err) ∧
    (∀ service cfg pre rec post err s1 s2,
      r.Get s req = Except.ok service → r.GetServiceAnotations service = Except.ok cfg →
      r.reconcilers (mkDast r service cfg) = pre ++ rec :: post →
      Succeeds pre s s1 → rec.Reconcile s1 = (some err, s2) →
      (Reconcile r s req).err = some err ∧
      (Reconcile r s req).invoked = pre.map (fun c => c.id) ++ [rec.id] ∧
      (Reconcile r s req).state = s2) ∧
    (∀ service cfg s1,
      r.Get s req = Except.ok service → r.GetServiceAnotations service = Except.ok cfg →
      Succeeds (r.reconcilers (mkDast r service cfg)) s s1 →
      (Reconcile r s req).err = none ∧
      (Reconcile r s req).invoked = (r.reconcilers (mkDast r service cfg)).map (fun c => c.id) ∧
      (Reconcile r s req).state = s1) ∧
    (∀ err, (Reconcile r s req).err = some err ↔
      (r.Get s req = Except.error err ∧ err.isNotFound = false) ∨
      (∃ service cfg pre rec post s1 s2,
        r.Get s req = Except.ok service ∧
        r.GetServiceAnotations service = Except.ok cfg ∧
        r.reconcilers (mkDast r service cfg) = pre ++ rec :: post ∧
        Succeeds pre s s1 ∧ rec.Reconcile s1 = (some err, s2))) := by
  have hfail : ∀ service cfg pre rec post err s1 s2,
      r.Get s req = Except.ok service → r.GetServiceAnotations service = Except.ok cfg →
      r.reconcilers (mkDast r service cfg) = pre ++ rec :: post →
      Succeeds pre s s1 → rec.Reconcile s1 = (some err, s2) →
      (Reconcile r s req).err = some err ∧
      (Reconcile r s req).invoked = pre.map (fun c => c.id) ++ [rec.id] ∧
      (Reconcile r s req).state = s2 := by
    intro service cfg pre rec post err s1 s2 hget hann hsplit hall hrec
    have hloop := reconcileLoop_fail pre rec post err s1 s2 hrec s hall
    simp [Reconcile, hget, hann, hsplit, hloop]
  have hok : ∀ service cfg s1,
      r.Get s req = Except.ok service → r.GetServiceAnotations service = Except.ok cfg →
      Succeeds (r.reconcilers (mkDast r service cfg)) s s1 →
      (Reconcile r s req).err = none ∧
      (Reconcile r s req).invoked = (r.reconcilers (mkDast r service cfg)).map (fun c => c.id) ∧
      (Reconcile r s req).state = s1 := by
    intro service cfg s1 hget hann hall
    have hloop := reconcileLoop_ok _ s s1 hall
    simp [Reconcile, hget, hann, hloop]
  refine ⟨?_, ?_, hfail, hok, ?_⟩
  · unfold Reconcile
    split
    · split <;> rfl
    · split <;> rfl
  · intro err hget
    by_cases hnf : err.isNotFound <;> simp [Reconcile, hget, hnf]
  · intro err
    rcases hget : r.Get s req with e | service
    · by_cases hnf : e.isNotFound
      · simp [Reconcile, hget, hnf]
        rintro rfl
        simp [hnf]
      · simp [Reconcile, hget, hnf]
        rintro rfl
        simpa using hnf
    · rcases hann : r.GetServiceAnotations service with e | cfg
      · simp [Reconcile, hget, hann]
      · constructor
        · intro herr
          rcases succeeds_or_first_failure (r.reconcilers (mkDast r service cfg)) s with
            ⟨s1, hall⟩ | ⟨pre, rec, post, err1, s1, s2, hsplit, hall, hrec⟩
          · rw [(hok service cfg s1 hget hann hall).1] at herr
            cases herr
          · rw [(hfail service cfg pre rec post err1 s1 s2 hget hann hsplit hall hrec).1] at herr
            obtain rfl : err1 = err := by simpa using herr
            exact Or.inr ⟨service, cfg, pre, rec, post, s1, s2, rfl, hann, hsplit, hall, hrec⟩
        · rintro (⟨h, _⟩ | ⟨service1, cfg1, pre, rec, post, s1, s2, h1, h2, hsplit, hall, hrec⟩)
          · cases h
          · obtain rfl : service = service1 := by simpa using h1
            exact (hfail service cfg1 pre rec post err s1 s2 hget h2 hsplit hall hrec).1

/-- In the small cluster the second of three components fails after the first
succeeded: its error is returned, the first two were called and the third was
not.  A service that is gone is reconciled with success and no call. -/
theorem Reconcile_error_iff_witness :
    ((Reconcile demoReconciler 0 ⟨"default", "web"⟩).err = some ⟨"b failed", false⟩ ∧
        (Reconcile demoReconciler 0 ⟨"default", "web"⟩).invoked = ["a", "b"] ∧
        (Reconcile demoReconciler 0 ⟨"default", "web"⟩).state = 2) ∧
      (Reconcile demoReconciler 0 ⟨"default", "gone"⟩).invoked = [] ∧
      (Reconcile demoReconciler 0 ⟨"default", "down"⟩).err = some ⟨"timeout", false⟩ :=
  ⟨(Reconcile_error_iff demoReconciler 0 ⟨"default", "web"⟩).2.2.1 ⟨"web", "ClusterIP"⟩
      [("namespace", "zap"), ("name", "proxy"), ("analyzer_image", "img")]
      [counting "a" false] (counting "b" true) [counting "c" false] ⟨"b failed", false⟩ 1 2
      rfl rfl rfl ⟨1, rfl, rfl⟩ rfl,
    ((Reconcile_error_iff demoReconciler 0 ⟨"default", "gone"⟩).2.1 ⟨"not found", true⟩ rfl).1,
    by decide⟩

end Controllers

namespace Scanner

/-! ## The crawl-driven run, start to end -/

/-- The active phase when everything goes well: `m` polls below 100, then one
at 100 or more, then both collection calls succeed. -/
theorem activeScan_done (fuel : Nat) (f : Flags) (e : Engine) (label done : String)
    (serving : Bool) (aid : String) (m : Nat) (q : Int)
    (ha : (e.ascanScan f.target).err = none)
    (haid : assertString (index (e.ascanScan f.target).resp "scan") = some aid)
    (hb : Below (e.ascanStatus aid) 0 m)
    (hq : progressOf (e.ascanStatus aid m) = some q) (hq100 : 100 ≤ q) (hm : m < fuel)
    (hal : (e.alerts f.target).err = none) (hsum : (e.alertsSummary f.target).err = none) :
    (activeScan fuel f e label done serving).result =
        some (Outcome.done (e.alerts f.target).alerts (e.alertsSummary f.target).resp) ∧
      engineCalls (activeScan fuel f e label done serving).trace =
        Call.ascanScan f.target :: List.replicate (m + 1) (Call.ascanStatus aid) ++
          [Call.alerts f.target, Call.alertsSummary f.target] := by
  have hpoll := poll_exits 5000 (Call.ascanStatus aid) (e.ascanStatus aid) (some label)
    m fuel 0 q hm hb (by simpa using hq) hq100
  constructor
  · simp [activeScan, ha, haid, hpoll, collect, hal, hsum]
  · simp only [activeScan, ha, haid, hpoll, collect, hal, hsum]
    split <;>
      (simp only [engineCalls_append, engineCalls_pollSteps]
       simp [engineCalls])

/-- Claim C6.  When `StartSpider` returns an error the run ends at once with
that error as its cause; the only engine call made is `StartSpider`. -/
theorem scanner_startSpider_fails (fuel : Nat) (f : Flags) (e : Engine) (err : Err)
    (hc : e.newClient = none) (h : (e.spiderScan f.target).err = some err) :
    scanner fuel f e =
        ⟨[Event.println ("Spider : " ++ f.target), Event.call (Call.spiderScan f.target)],
          some (Outcome.fatal err)⟩ ∧
      engineCalls (scanner fuel f e).trace = [Call.spiderScan f.target] := by
  simp [scanner, hc, h, engineCalls]

/-- With an unavailable engine the run is the start call and the fatal exit,
whatever fuel it is given. -/
theorem scanner_startSpider_fails_witness :
    scanner 7 demoFlags spiderUnavailable =
        ⟨[Event.println ("Spider : " ++ demoFlags.target),
            Event.call (Call.spiderScan demoFlags.target)],
          some (Outcome.fatal "EngineUnavailable")⟩ ∧
      engineCalls (scanner 7 demoFlags spiderUnavailable).trace =
        [Call.spiderScan demoFlags.target] :=
  scanner_startSpider_fails 7 demoFlags spiderUnavailable "EngineUnavailable" rfl rfl

/-- Claim C1.  When every engine call succeeds, the spider reads progress below
100 for `n` polls and at least 100 at the next, and the active scan likewise for
`m` polls, then with fuel for both loops the crawl-driven run ends Done with
the alerts and the summary the engine returned, and its engine calls are, in
order: StartSpider, `n + 1` SpiderStatus, StartActiveScan, `m + 1`
ActiveScanStatus, FetchAlerts, FetchSummary. -/
theorem scanner_done (fuel : Nat) (f : Flags) (e : Engine) (sid aid : String)
    (n m : Nat) (p q : Int)
    (hc : e.newClient = none)
    (hs : (e.spiderScan f.target).err = none)
    (hsid : assertString (index (e.spiderScan f.target).resp "scan") = some sid)
    (hb : Below (e.spiderStatus sid) 0 n)
    (hp : progressOf (e.spiderStatus sid n) = some p) (hp100 : 100 ≤ p)
    (ha : (e.ascanScan f.target).err = none)
    (haid : assertString (index (e.ascanScan f.target).resp "scan") = some aid)
    (hb1 : Below (e.ascanStatus aid) 0 m)
    (hq : progressOf (e.ascanStatus aid m) = some q) (hq100 : 100 ≤ q)
    (hal : (e.alerts f.target).err = none) (hsum : (e.alertsSummary f.target).err = none)
    (hn : n < fuel) (hm : m < fuel) :
    (scanner fuel f e).result =
        some (Outcome.done (e.alerts f.target).alerts (e.alertsSummary f.target).resp) ∧
      engineCalls (scanner fuel f e).trace =
        Call.spiderScan f.target :: List.replicate (n + 1) (Call.spiderStatus sid) ++
          (Call.ascanScan f.target :: List.replicate (m + 1) (Call.ascanStatus aid) ++
            [Call.alerts f.target, Call.alertsSummary f.target]) := by
  have hpoll := poll_exits 1000 (Call.spiderStatus sid) (e.spiderStatus sid) none
    n fuel 0 p hn hb (by simpa using hp) hp100
  obtain ⟨hres, hcalls⟩ := activeScan_done fuel f e "Active Scan progress" "Active Scan complete"
    true aid m q ha haid hb1 hq hq100 hm hal hsum
  constructor
  · simp [scanner, hc, hs, hsid, hpoll, hres]
  · simp only [scanner, hc, hs, hsid, hpoll]
    simp only [engineCalls_append, engineCalls_pollSteps, hcalls]
    simp [engineCalls]

theorem demo_spider_below : Below (demoEngine.spiderStatus "0") 0 2 := by
  intro j hj
  interval_cases j
  · exact ⟨0, by decide, by decide⟩
  · exact ⟨40, by decide, by decide⟩

theorem demo_ascan_below : Below (demoEngine.ascanStatus "1") 0 2 := by
  intro j hj
  interval_cases j
  · exact ⟨0, by decide, by decide⟩
  · exact ⟨50, by decide, by decide⟩

/-- The scenario of the specification: spider 0, 40, 100, active scan 0, 50,
100, alerts High and Medium: three polls a phase, Done, summary High 1 and
Medium 1. -/
theorem scanner_done_witness :
    (scanner 3 demoFlags demoEngine).result =
        some (Outcome.done [[("risk", Value.str "High")], [("risk", Value.str "Medium")]]
          [("High", Value.num 1), ("Medium", Value.num 1)]) ∧
      engineCalls (scanner 3 demoFlags demoEngine).trace =
        [Call.spiderScan "http://t", Call.spiderStatus "0", Call.spiderStatus "0",
          Call.spiderStatus "0", Call.ascanScan "http://t", Call.ascanStatus "1",
          Call.ascanStatus "1", Call.ascanStatus "1", Call.alerts "http://t",
          Call.alertsSummary "http://t"] :=
  scanner_done 3 demoFlags demoEngine "0" "1" 2 2 100 100 rfl rfl rfl demo_spider_below
    (by decide) (by decide) rfl rfl demo_ascan_below (by decide) (by decide) rfl rfl
    (by decide) (by decide)

end Scanner

namespace Scanner

/-! ## Where a phase change sits in a trace -/

/-- An event that does not occur in `a` and is found in `a ++ l` is found in `l`. -/
theorem split_after (x : Event) (a : List Event) (hx : x ∉ a) :
    ∀ (l pre post : List Event), a ++ l = pre ++ x :: post →
      ∃ pre1, pre = a ++ pre1 ∧ l = pre1 ++ x :: post := by
  induction a with
  | nil => intro l pre post h; exact ⟨pre, rfl, h⟩
  | cons y a ih =>
    intro l pre post h
    cases pre with
    | nil =>
      simp only [List.cons_append, List.nil_append, List.cons.injEq] at h
      exact absurd (h.1 ▸ List.mem_cons_self y a) hx
    | cons z pre =>
      simp only [List.cons_append, List.cons.injEq] at h
      obtain ⟨rfl, h⟩ := h
      obtain ⟨pre1, rfl, hl⟩ := ih (fun hm => hx (List.mem_cons_of_mem _ hm)) l pre post h
      exact ⟨pre1, rfl, hl⟩

/-- An event that occurs once in a list splits it in one way only. -/
theorem split_unique (x : Event) (a b : List Event) (ha : x ∉ a) (hb : x ∉ b)
    (pre post : List Event) (h : a ++ x :: b = pre ++ x :: post) : pre = a ∧ post = b := by
  obtain ⟨pre1, rfl, hl⟩ := split_after x a ha (x :: b) pre post h
  cases pre1 with
  | nil =>
    simp only [List.nil_append, List.cons.injEq, true_and] at hl
    exact ⟨by simp, hl.symm⟩
  | cons z pre1 =>
    simp only [List.cons_append, List.cons.injEq] at hl
    exact absurd (hl.2 ▸ List.mem_append_right pre1 (List.mem_cons_self x post)) hb

theorem not_mem_pollSteps (ms : Nat) (c : Call) (status : Nat → Reply) (label : Option String)
    (ev : Event) (h1 : ev ≠ Event.sleep ms) (h2 : ev ≠ Event.call c)
    (h3 : ∀ l p, ev ≠ Event.printProgress l p) (n k : Nat) :
    ev ∉ pollSteps ms c status label n k := by
  intro h
  rcases mem_pollSteps ms c status label ev n k h with h | h | ⟨l, p, h⟩
  · exact h1 h
  · exact h2 h
  · exact h3 l p h

/-- The trace of the loop is always a number of whole rounds. -/
theorem poll_trace (ms : Nat) (c : Call) (status : Nat → Reply) (label : Option String)
    (fuel k : Nat) :
    ∃ n, (poll ms c status label fuel k).1 = pollSteps ms c status label n k := by
  rcases poll_spec ms c status label fuel k with
    ⟨n, p, _, _, _, _, h⟩ | ⟨n, _, _, _, h⟩ | ⟨_, h⟩
  · exact ⟨n + 1, by rw [h]⟩
  · exact ⟨n + 1, by rw [h]⟩
  · exact ⟨fuel, by rw [h]⟩

/-- The failed type assertion, read forward. -/
theorem poll_panics (ms : Nat) (c : Call) (status : Nat → Reply) (label : Option String) :
    ∀ n fuel k, n < fuel → Below status k n → progressOf (status (k + n)) = none →
      poll ms c status label fuel k =
        (pollSteps ms c status label (n + 1) k, PollEnd.panicked) := by
  intro n
  induction n with
  | zero =>
    intro fuel k hf _ hp
    obtain ⟨fuel, rfl⟩ : ∃ m, fuel = m + 1 := ⟨fuel - 1, by omega⟩
    have hp0 : progressOf (status k) = none := by simpa using hp
    cases label <;> simp [poll, pollSteps, hp0]
  | succ n ih =>
    intro fuel k hf hb hp
    obtain ⟨fuel, rfl⟩ : ∃ m, fuel = m + 1 := ⟨fuel - 1, by omega⟩
    obtain ⟨q, hq, hq100⟩ := hb.head
    have hnot : ¬ 100 ≤ q := by omega
    have hp1 : progressOf (status (k + 1 + n)) = none := by
      rw [← hp]; congr 2; omega
    have he := ih fuel (k + 1) (by omega) hb.tail hp1
    cases label <;> simp [poll, pollSteps, hq, hnot, he]

/-- The label of a phase changes what is printed and nothing else. -/
theorem poll_label (ms : Nat) (c : Call) (status : Nat → Reply) (l1 l2 : Option String) :
    ∀ fuel k, (poll ms c status l1 fuel k).2 = (poll ms c status l2 fuel k).2 ∧
      engineCalls (poll ms c status l1 fuel k).1 = engineCalls (poll ms c status l2 fuel k).1 := by
  intro fuel k
  rcases poll_spec ms c status l1 fuel k with
    ⟨n, p, hn, hb, hp, h100, h⟩ | ⟨n, hn, hb, hp, h⟩ | ⟨hb, h⟩
  · rw [h, poll_exits ms c status l2 n fuel k p hn hb hp h100]
    simp only [engineCalls_pollSteps, and_self]
  · rw [h, poll_panics ms c status l2 n fuel k hn hb hp]
    simp only [engineCalls_pollSteps, and_self]
  · rw [h, poll_pending ms c status l2 fuel k hb]
    simp only [engineCalls_pollSteps, and_self]

theorem mem_collect_trace (f : Flags) (e : Engine) (done : String) (serving : Bool)
    (ev : Event) (h : ev ∈ (collect f e done serving).trace) :
    ev = Event.println done ∨ ev = Event.println "Alerts:" ∨
      ev = Event.call (Call.alerts f.target) ∨ ev = Event.call (Call.alertsSummary f.target) ∨
      (∃ a, ev = Event.printAlerts a) ∨ (∃ a, ev = Event.printSummary a) ∨
      ∃ a, ev = Event.serveResults a := by
  unfold collect at h
  split at h
  · simp at h; tauto
  · split at h
    · simp at h; tauto
    · simp only at h
      split at h
      · simp at h
        rcases h with h | h | h | h | h | h | h <;> simp [h]
      · simp at h
        rcases h with h | h | h | h | h | h <;> simp [h]

/-- The trace of `collect` starts with the two lines and `FetchAlerts`, which
is not called again. -/
theorem collect_trace_head (f : Flags) (e : Engine) (done : String) (serving : Bool) :
    ∃ rest, (collect f e done serving).trace =
        [Event.println done, Event.println "Alerts:"] ++
          Event.call (Call.alerts f.target) :: rest ∧
      Event.call (Call.alerts f.target) ∉ rest := by
  unfold collect
  split
  · exact ⟨[], by simp, by simp⟩
  · split
    · exact ⟨[Event.call (Call.alertsSummary f.target)], by simp, by simp⟩
    · simp only
      split
      · exact ⟨_, by simp; rfl, by simp⟩
      · exact ⟨_, by simp; rfl, by simp⟩

end Scanner

namespace Scanner

/-- The active phase, read off in full: either `FetchAlerts` is never called,
or the loop left after a poll at 100 or more and the trace is the start, the
whole rounds and the collection. -/
theorem activeScan_cases (fuel : Nat) (f : Flags) (e : Engine) (label done : String)
    (serving : Bool) :
    (Event.call (Call.alerts f.target) ∉ (activeScan fuel f e label done serving).trace ∧
      ∀ aid m q, (e.ascanScan f.target).err = none →
        assertString (index (e.ascanScan f.target).resp "scan") = some aid →
        Below (e.ascanStatus aid) 0 m → progressOf (e.ascanStatus aid m) = some q →
        100 ≤ q → ¬ m < fuel) ∨
    (∃ aid m q, (e.ascanScan f.target).err = none ∧
      assertString (index (e.ascanScan f.target).resp "scan") = some aid ∧
      Below (e.ascanStatus aid) 0 m ∧ progressOf (e.ascanStatus aid m) = some q ∧ 100 ≤ q ∧
      m < fuel ∧
      (activeScan fuel f e label done serving).trace =
        Event.call (Call.ascanScan f.target) ::
          pollSteps 5000 (Call.ascanStatus aid) (e.ascanStatus aid) (some label) (m + 1) 0 ++
            (collect f e done serving).trace ∧
      (activeScan fuel f e label done serving).result = (collect f e done serving).result) := by
  rcases ha : (e.ascanScan f.target).err with _ | err
  · rcases haid : assertString (index (e.ascanScan f.target).resp "scan") with _ | aid
    · left
      refine ⟨by simp [activeScan, ha, haid], ?_⟩
      intro aid m q _ h
      simp at h
    · rcases poll_spec 5000 (Call.ascanStatus aid) (e.ascanStatus aid) (some label) fuel 0 with
        ⟨n, p, hn, hb, hp, h100, h⟩ | ⟨n, hn, hb, hp, h⟩ | ⟨hb, h⟩
      · right
        refine ⟨aid, n, p, rfl, rfl, hb, by simpa using hp, h100, hn, ?_, ?_⟩ <;>
          simp [activeScan, ha, haid, h]
      · left
        constructor
        · simp only [activeScan, ha, haid, h, List.singleton_append, List.mem_cons,
            Event.call.injEq, reduceCtorEq, false_or]
          exact not_mem_pollSteps _ _ _ _ _ (by simp) (by simp) (by simp) _ _
        · intro aid1 m q _ h1 hb1 hq hq100 hm
          obtain rfl : aid = aid1 := by simpa using h1
          have := poll_exits 5000 (Call.ascanStatus aid) (e.ascanStatus aid) (some label)
            m fuel 0 q hm hb1 (by simpa using hq) hq100
          rw [h] at this
          simp at this
      · left
        constructor
        · simp only [activeScan, ha, haid, h, List.singleton_append, List.mem_cons,
            Event.call.injEq, reduceCtorEq, false_or]
          exact not_mem_pollSteps _ _ _ _ _ (by simp) (by simp) (by simp) _ _
        · intro aid1 m q _ h1 hb1 hq hq100 hm
          obtain rfl : aid = aid1 := by simpa using h1
          have := poll_exits 5000 (Call.ascanStatus aid) (e.ascanStatus aid) (some label)
            m fuel 0 q hm hb1 (by simpa using hq) hq100
          rw [h] at this
          simp at this
  · left
    refine ⟨by simp [activeScan, ha], ?_⟩
    intro aid m q h
    simp at h

/-- The active phase opens with `StartActiveScan`, called once; it never waits
the grace interval and never polls the spider. -/
theorem activeScan_trace_head (fuel : Nat) (f : Flags) (e : Engine) (label done : String)
    (serving : Bool) :
    ∃ rest, (activeScan fuel f e label done serving).trace =
        Event.call (Call.ascanScan f.target) :: rest ∧
      (∀ t, Event.call (Call.ascanScan t) ∉ rest) ∧ Event.sleep 2000 ∉ rest ∧
      ∀ sid, Event.call (Call.spiderStatus sid) ∉ rest := by
  have hcollect : ∀ ev, (∀ t, ev ≠ Event.println t) → (∀ t, ev ≠ Event.call (Call.alerts t)) →
      (∀ t, ev ≠ Event.call (Call.alertsSummary t)) → (∀ a, ev ≠ Event.printAlerts a) →
      (∀ a, ev ≠ Event.printSummary a) → (∀ a, ev ≠ Event.serveResults a) →
      ev ∉ (collect f e done serving).trace := by
    intro ev h1 h2 h3 h4 h5 h6 hm
    rcases mem_collect_trace f e done serving ev hm with
      h | h | h | h | ⟨a, h⟩ | ⟨a, h⟩ | ⟨a, h⟩
    · exact h1 _ h
    · exact h1 _ h
    · exact h2 _ h
    · exact h3 _ h
    · exact h4 _ h
    · exact h5 _ h
    · exact h6 _ h
  unfold activeScan
  split
  · exact ⟨[], rfl, by simp, by simp, by simp⟩
  · split
    · exact ⟨[], rfl, by simp, by simp, by simp⟩
    · rename_i aid _
      obtain ⟨n, hn⟩ := poll_trace 5000 (Call.ascanStatus aid) (e.ascanStatus aid)
        (some label) fuel 0
      have hsteps : ∀ ev, ev ≠ Event.sleep 5000 → (∀ t, ev ≠ Event.call (Call.ascanStatus t)) →
          (∀ l p, ev ≠ Event.printProgress l p) →
          ev ∉ (poll 5000 (Call.ascanStatus aid) (e.ascanStatus aid) (some label) fuel 0).1 := by
        intro ev h1 h2 h3
        rw [hn]
        exact not_mem_pollSteps _ _ _ _ _ h1 (h2 _) h3 _ _
      split
      · rename_i t ht
        have ht1 : t = (poll 5000 (Call.ascanStatus aid) (e.ascanStatus aid)
            (some label) fuel 0).1 := by rw [ht]
        refine ⟨t, rfl, ?_, ?_, ?_⟩
        · intro u; rw [ht1]; exact hsteps _ (by simp) (by simp) (by simp)
        · rw [ht1]; exact hsteps _ (by simp) (by simp) (by simp)
        · intro u; rw [ht1]; exact hsteps _ (by simp) (by simp) (by simp)
      · rename_i t ht
        have ht1 : t = (poll 5000 (Call.ascanStatus aid) (e.ascanStatus aid)
            (some label) fuel 0).1 := by rw [ht]
        refine ⟨t, rfl, ?_, ?_, ?_⟩
        · intro u; rw [ht1]; exact hsteps _ (by simp) (by simp) (by simp)
        · rw [ht1]; exact hsteps _ (by simp) (by simp) (by simp)
        · intro u; rw [ht1]; exact hsteps _ (by simp) (by simp) (by simp)
      · rename_i t ht
        have ht1 : t = (poll 5000 (Call.ascanStatus aid) (e.ascanStatus aid)
            (some label) fuel 0).1 := by rw [ht]
        refine ⟨t ++ (collect f e done serving).trace, by simp, ?_, ?_, ?_⟩
        · intro u
          rw [List.mem_append, not_or]
          exact ⟨by rw [ht1]; exact hsteps _ (by simp) (by simp) (by simp),
            hcollect _ (by simp) (by simp) (by simp) (by simp) (by simp) (by simp)⟩
        · rw [List.mem_append, not_or]
          exact ⟨by rw [ht1]; exact hsteps _ (by simp) (by simp) (by simp),
            hcollect _ (by simp) (by simp) (by simp) (by simp) (by simp) (by simp)⟩
        · intro u
          rw [List.mem_append, not_or]
          exact ⟨by rw [ht1]; exact hsteps _ (by simp) (by simp) (by simp),
            hcollect _ (by simp) (by simp) (by simp) (by simp) (by simp) (by simp)⟩

end Scanner

namespace Scanner

theorem engineCalls_collect (f : Flags) (e : Engine) (d1 d2 : String) (s1 s2 : Bool) :
    engineCalls (collect f e d1 s1).trace = engineCalls (collect f e d2 s2).trace := by
  unfold collect
  split
  · simp [engineCalls]
  · split
    · simp [engineCalls]
    · simp only
      split <;> split <;> simp [engineCalls]

/-- The engine calls of the active phase are the same in both modes. -/
theorem engineCalls_activeScan (fuel : Nat) (f : Flags) (e : Engine) (l1 d1 l2 d2 : String)
    (s1 s2 : Bool) :
    engineCalls (activeScan fuel f e l1 d1 s1).trace =
      engineCalls (activeScan fuel f e l2 d2 s2).trace := by
  rcases ha : (e.ascanScan f.target).err with _ | err
  · rcases haid : assertString (index (e.ascanScan f.target).resp "scan") with _ | aid
    · simp [activeScan, ha, haid]
    · obtain ⟨hend, hcalls⟩ := poll_label 5000 (Call.ascanStatus aid) (e.ascanStatus aid)
        (some l1) (some l2) fuel 0
      rcases h1 : poll 5000 (Call.ascanStatus aid) (e.ascanStatus aid) (some l1) fuel 0 with
        ⟨t1, r1⟩
      rcases h2 : poll 5000 (Call.ascanStatus aid) (e.ascanStatus aid) (some l2) fuel 0 with
        ⟨t2, r2⟩
      rw [h1, h2] at hend hcalls
      simp only at hend hcalls
      subst hend
      cases r1 <;>
        simp [activeScan, ha, haid, h1, h2, engineCalls_append, engineCalls, hcalls,
          engineCalls_collect f e d1 d2 s1 s2]
  · simp [activeScan, ha]

/-- Where `FetchAlerts` sits in the trace of the active phase. -/
theorem activeScan_collects (fuel : Nat) (f : Flags) (e : Engine) (label done : String)
    (serving : Bool) (init : List Event) (hinit : Event.call (Call.alerts f.target) ∉ init) :
    CollectsAfter100 f e (init ++ (activeScan fuel f e label done serving).trace) := by
  intro pre post h
  rcases activeScan_cases fuel f e label done serving with
    ⟨hno, _⟩ | ⟨aid, m, q, _, haid, hb, hq, hq100, _, htrace, _⟩
  · exfalso
    have hmem : Event.call (Call.alerts f.target) ∈
        init ++ (activeScan fuel f e label done serving).trace := by
      rw [h]; simp
    rcases List.mem_append.1 hmem with hm | hm
    · exact hinit hm
    · exact hno hm
  · obtain ⟨rest, hrest, hnot⟩ := collect_trace_head f e done serving
    rw [htrace, hrest] at h
    have hsteps : Event.call (Call.alerts f.target) ∉
        pollSteps 5000 (Call.ascanStatus aid) (e.ascanStatus aid) (some label) (m + 1) 0 :=
      not_mem_pollSteps _ _ _ _ _ (by simp) (by simp) (by simp) _ _
    have ha : Event.call (Call.alerts f.target) ∉
        init ++ Event.call (Call.ascanScan f.target) ::
          pollSteps 5000 (Call.ascanStatus aid) (e.ascanStatus aid) (some label) (m + 1) 0 ++
            [Event.println done, Event.println "Alerts:"] := by
      intro hm
      simp only [List.append_assoc, List.cons_append, List.mem_append, List.mem_cons,
        List.mem_singleton, List.nil_append, List.not_mem_nil, Event.call.injEq,
        reduceCtorEq, or_false, false_or] at hm
      rcases hm with hm | hm
      · exact hinit hm
      · exact hsteps hm
    obtain ⟨hpre, hpost⟩ := split_unique _ _ rest ha hnot pre post (by simpa using h)
    subst hpre hpost
    exact ⟨ha, hnot, aid, m, q, init, label, done, haid, hb, hq, hq100, rfl⟩

end Scanner

namespace Scanner

/-- The crawl-driven run, read off up to the start of the active phase: either
it never gets past the spider (no grace interval, no active scan, no
collection), or the spider loop left after a poll at 100 or more and the trace
is the start, the whole rounds, the grace interval and the active phase. -/
theorem scanner_cases (fuel : Nat) (f : Flags) (e : Engine) :
    (Event.sleep 2000 ∉ (scanner fuel f e).trace ∧
      (∀ t, Event.call (Call.ascanScan t) ∉ (scanner fuel f e).trace) ∧
      (∀ t, Event.call (Call.alerts t) ∉ (scanner fuel f e).trace) ∧
      ∀ sid n p, e.newClient = none → (e.spiderScan f.target).err = none →
        assertString (index (e.spiderScan f.target).resp "scan") = some sid →
        Below (e.spiderStatus sid) 0 n → progressOf (e.spiderStatus sid n) = some p →
        100 ≤ p → ¬ n < fuel) ∨
    (∃ sid n p, e.newClient = none ∧ (e.spiderScan f.target).err = none ∧
      assertString (index (e.spiderScan f.target).resp "scan") = some sid ∧
      Below (e.spiderStatus sid) 0 n ∧ progressOf (e.spiderStatus sid n) = some p ∧ 100 ≤ p ∧
      n < fuel ∧
      (scanner fuel f e).trace =
        ([Event.println ("Spider : " ++ f.target), Event.call (Call.spiderScan f.target)] ++
          pollSteps 1000 (Call.spiderStatus sid) (e.spiderStatus sid) none (n + 1) 0 ++
          [Event.println "Spider complete"]) ++
        Event.sleep 2000 :: ([Event.println ("Active scan : " ++ f.target)] ++
          (activeScan fuel f e "Active Scan progress" "Active Scan complete" true).trace) ∧
      (scanner fuel f e).result =
        (activeScan fuel f e "Active Scan progress" "Active Scan complete" true).result) := by
  rcases hc : e.newClient with _ | err
  · rcases hs : (e.spiderScan f.target).err with _ | err
    · rcases hsid : assertString (index (e.spiderScan f.target).resp "scan") with _ | sid
      · left
        refine ⟨by simp [scanner, hc, hs, hsid], by simp [scanner, hc, hs, hsid],
          by simp [scanner, hc, hs, hsid], ?_⟩
        intro sid n p _ _ h
        simp at h
      · have hsteps : ∀ m, Event.sleep 2000 ∉
              pollSteps 1000 (Call.spiderStatus sid) (e.spiderStatus sid) none m 0 ∧
            (∀ t, Event.call (Call.ascanScan t) ∉
              pollSteps 1000 (Call.spiderStatus sid) (e.spiderStatus sid) none m 0) ∧
            ∀ t, Event.call (Call.alerts t) ∉
              pollSteps 1000 (Call.spiderStatus sid) (e.spiderStatus sid) none m 0 :=
          fun m => ⟨not_mem_pollSteps _ _ _ _ _ (by simp) (by simp) (by simp) _ _,
            fun t => not_mem_pollSteps _ _ _ _ _ (by simp) (by simp) (by simp) _ _,
            fun t => not_mem_pollSteps _ _ _ _ _ (by simp) (by simp) (by simp) _ _⟩
        have hlive : ∀ m r, r ≠ PollEnd.exited →
            poll 1000 (Call.spiderStatus sid) (e.spiderStatus sid) none fuel 0 =
              (pollSteps 1000 (Call.spiderStatus sid) (e.spiderStatus sid) none m 0, r) →
            ∀ sid1 n p, (none : Option Err) = none → (none : Option Err) = none →
              some sid = some sid1 → Below (e.spiderStatus sid1) 0 n →
              progressOf (e.spiderStatus sid1 n) = some p → 100 ≤ p → ¬ n < fuel := by
          intro m r hr h sid1 n p _ _ h1 hb1 hp hp100 hn
          obtain rfl : sid = sid1 := by simpa using h1
          have := poll_exits 1000 (Call.spiderStatus sid) (e.spiderStatus sid) none
            n fuel 0 p hn hb1 (by simpa using hp) hp100
          rw [h] at this
          exact hr (by simpa using congrArg Prod.snd this)
        rcases poll_spec 1000 (Call.spiderStatus sid) (e.spiderStatus sid) none fuel 0 with
          ⟨n, p, hn, hb, hp, h100, h⟩ | ⟨n, hn, hb, hp, h⟩ | ⟨hb, h⟩
        · right
          refine ⟨sid, n, p, rfl, rfl, rfl, hb, by simpa using hp, h100, hn, ?_, ?_⟩ <;>
            simp [scanner, hc, hs, hsid, h]
        · left
          refine ⟨?_, ?_, ?_, hlive _ _ (by simp) h⟩
          · simpa [scanner, hc, hs, hsid, h] using (hsteps (n + 1)).1
          · simpa [scanner, hc, hs, hsid, h] using (hsteps (n + 1)).2.1
          · simpa [scanner, hc, hs, hsid, h] using (hsteps (n + 1)).2.2
        · left
          refine ⟨?_, ?_, ?_, hlive _ _ (by simp) h⟩
          · simpa [scanner, hc, hs, hsid, h] using (hsteps fuel).1
          · simpa [scanner, hc, hs, hsid, h] using (hsteps fuel).2.1
          · simpa [scanner, hc, hs, hsid, h] using (hsteps fuel).2.2
    · left
      refine ⟨by simp [scanner, hc, hs], by simp [scanner, hc, hs], by simp [scanner, hc, hs], ?_⟩
      intro sid n p _ h
      simp at h
  · left
    refine ⟨by simp [scanner, hc], by simp [scanner, hc], by simp [scanner, hc], ?_⟩
    intro sid n p h
    simp at h

end Scanner

namespace Scanner

/-- Claim C2.  In every crawl-driven run, whatever the engine replies and however
long the run is followed: the grace interval after the spider (the step from
Spidering to PassiveGrace) occurs at most once in the trace; where it occurs,
what precedes it is the start of the spider and `n + 1` whole poll rounds, of
which the first `n` read progress below 100 and the last read 100 or more;
`StartActiveScan` is never called before it; and it does occur as soon as the
spider progress reaches 100 within the polls the run is followed for. -/
theorem scanner_leaves_spidering_once (fuel : Nat) (f : Flags) (e : Engine) :
    (∀ pre post, (scanner fuel f e).trace = pre ++ Event.sleep 2000 :: post →
      Event.sleep 2000 ∉ pre ∧ Event.sleep 2000 ∉ post ∧
      ∃ sid n p, assertString (index (e.spiderScan f.target).resp "scan") = some sid ∧
        Below (e.spiderStatus sid) 0 n ∧ progressOf (e.spiderStatus sid n) = some p ∧
        100 ≤ p ∧
        pre = [Event.println ("Spider : " ++ f.target), Event.call (Call.spiderScan f.target)] ++
          pollSteps 1000 (Call.spiderStatus sid) (e.spiderStatus sid) none (n + 1) 0 ++
          [Event.println "Spider complete"]) ∧
    (∀ pre post t, (scanner fuel f e).trace = pre ++ Event.call (Call.ascanScan t) :: post →
      Event.sleep 2000 ∈ pre) ∧
    (∀ sid n p, e.newClient = none → (e.spiderScan f.target).err = none →
      assertString (index (e.spiderScan f.target).resp "scan") = some sid →
      Below (e.spiderStatus sid) 0 n → progressOf (e.spiderStatus sid n) = some p →
      100 ≤ p → n < fuel → Event.sleep 2000 ∈ (scanner fuel f e).trace) := by
  rcases scanner_cases fuel f e with
    ⟨hno, hnoa, _, hlive⟩ | ⟨sid, n, p, hc, hs, hsid, hb, hp, hp100, hn, htrace, _⟩
  · refine ⟨?_, ?_, ?_⟩
    · intro pre post h
      exact absurd (by rw [h]; simp) hno
    · intro pre post t h
      exact absurd (by rw [h]; simp) (hnoa t)
    · intro sid n p hc hs hsid hb hp hp100 hn
      exact absurd hn (hlive sid n p hc hs hsid hb hp hp100)
  · obtain ⟨rest, hrest, hnoa, hnos, _⟩ := activeScan_trace_head fuel f e
      "Active Scan progress" "Active Scan complete" true
    have hsteps : ∀ ev : Event, ev ≠ Event.sleep 1000 →
        (∀ t, ev ≠ Event.call (Call.spiderStatus t)) →
        (∀ t, ev ≠ Event.call (Call.spiderScan t)) → (∀ t, ev ≠ Event.println t) →
        (∀ l q, ev ≠ Event.printProgress l q) →
        ev ∉ [Event.println ("Spider : " ++ f.target), Event.call (Call.spiderScan f.target)] ++
          pollSteps 1000 (Call.spiderStatus sid) (e.spiderStatus sid) none (n + 1) 0 ++
          [Event.println "Spider complete"] := by
      intro ev h1 h2 h3 h4 h5 hm
      simp only [List.mem_append, List.mem_cons, List.mem_singleton, List.not_mem_nil,
        or_false] at hm
      rcases hm with (((hm | hm) | hm) | hm)
      · exact h4 _ hm
      · exact h3 _ hm
      · exact not_mem_pollSteps _ _ _ _ _ h1 (h2 _) h5 _ _ hm
      · exact h4 _ hm
    refine ⟨?_, ?_, ?_⟩
    · intro pre post h
      rw [htrace] at h
      have hb2 : Event.sleep 2000 ∉ [Event.println ("Active scan : " ++ f.target)] ++
          (activeScan fuel f e "Active Scan progress" "Active Scan complete" true).trace := by
        rw [hrest]
        intro hm
        simp only [List.singleton_append, List.mem_cons, reduceCtorEq, false_or] at hm
        exact hnos hm
      obtain ⟨hpre, hpost⟩ := split_unique _ _ _
        (hsteps _ (by simp) (by simp) (by simp) (by simp) (by simp)) hb2 pre post h
      subst hpre hpost
      exact ⟨hsteps _ (by simp) (by simp) (by simp) (by simp) (by simp), hb2,
        sid, n, p, hsid, hb, hp, hp100, rfl⟩
    · intro pre post t h
      rw [htrace, hrest] at h
      have h1 : ([Event.println ("Spider : " ++ f.target),
            Event.call (Call.spiderScan f.target)] ++
          pollSteps 1000 (Call.spiderStatus sid) (e.spiderStatus sid) none (n + 1) 0 ++
          [Event.println "Spider complete"] ++
          [Event.sleep 2000, Event.println ("Active scan : " ++ f.target)]) ++
          Event.call (Call.ascanScan f.target) :: rest =
          pre ++ Event.call (Call.ascanScan t) :: post := by
        rw [← h]; simp
      have hnot : Event.call (Call.ascanScan t) ∉
          [Event.println ("Spider : " ++ f.target), Event.call (Call.spiderScan f.target)] ++
          pollSteps 1000 (Call.spiderStatus sid) (e.spiderStatus sid) none (n + 1) 0 ++
          [Event.println "Spider complete"] ++
          [Event.sleep 2000, Event.println ("Active scan : " ++ f.target)] := by
        intro hm
        rcases List.mem_append.1 hm with hm | hm
        · exact hsteps _ (by simp) (by simp) (by simp) (by simp) (by simp) hm
        · simp at hm
      obtain ⟨pre1, hpre, _⟩ := split_after _ _ hnot _ pre post h1
      rw [hpre]
      simp
    · intro _ _ _ _ _ _ _ _ _ _
      rw [htrace]
      simp

/-- In the scenario run the grace interval is there, once, after the third
spider poll, and the active scan starts after it. -/
theorem scanner_leaves_spidering_once_witness :
    Event.sleep 2000 ∈ (scanner 3 demoFlags demoEngine).trace ∧
      (scanner 3 demoFlags demoEngine).trace.count (Event.sleep 2000) = 1 ∧
      Event.sleep 2000 ∉ (scanner 2 demoFlags demoEngine).trace :=
  ⟨(scanner_leaves_spidering_once 3 demoFlags demoEngine).2.2 "0" 2 100 rfl rfl rfl
      demo_spider_below (by decide) (by decide) (by decide),
    by decide, by decide⟩

end Scanner

namespace Scanner

/-- The specification-driven run, read off up to the start of the active
phase. -/
theorem apiScanner_cases (fuel : Nat) (f : Flags) (e : Engine) :
    ((∀ t, Event.call (Call.alerts t) ∉ (apiScanner fuel f e).trace) ∧
      (∀ t, Event.call (Call.ascanScan t) ∉ (apiScanner fuel f e).trace) ∧
      ¬ (e.newClient = none ∧ (e.importUrl f.openapiURL f.target).err = none ∧
        (e.urls f.target).err = none)) ∨
    (∃ init, e.newClient = none ∧ (e.importUrl f.openapiURL f.target).err = none ∧
      (e.urls f.target).err = none ∧
      (apiScanner fuel f e).trace = init ++
        (activeScan fuel f e "Active API Scan progress" "Active API Scan complete" false).trace ∧
      (∀ t, Event.call (Call.alerts t) ∉ init) ∧ (∀ t, Event.call (Call.ascanScan t) ∉ init) ∧
      (apiScanner fuel f e).result =
        (activeScan fuel f e "Active API Scan progress" "Active API Scan complete" false).result) := by
  rcases hc : e.newClient with _ | err
  · rcases hi : (e.importUrl f.openapiURL f.target).err with _ | err
    · rcases hu : (e.urls f.target).err with _ | err
      · right
        simp only [apiScanner, hc, hi, hu]
        split
        · exact ⟨_, by trivial, by trivial, by trivial, rfl, by simp [scripts],
            by simp [scripts], by trivial⟩
        · exact ⟨_, by trivial, by trivial, by trivial, rfl, by simp [scripts],
            by simp [scripts], by trivial⟩
      · left
        exact ⟨by simp [apiScanner, hc, hi, hu, scripts], by simp [apiScanner, hc, hi, hu, scripts],
          by simp⟩
    · left
      exact ⟨by simp [apiScanner, hc, hi, scripts], by simp [apiScanner, hc, hi, scripts],
        by simp⟩
  · left
    exact ⟨by simp [apiScanner, hc], by simp [apiScanner, hc], by simp⟩

/-- The active phase reaches the collection once its progress reaches 100. -/
theorem activeScan_reaches (fuel : Nat) (f : Flags) (e : Engine) (label done : String)
    (serving : Bool) (aid : String) (m : Nat) (q : Int)
    (ha : (e.ascanScan f.target).err = none)
    (haid : assertString (index (e.ascanScan f.target).resp "scan") = some aid)
    (hb : Below (e.ascanStatus aid) 0 m)
    (hq : progressOf (e.ascanStatus aid m) = some q) (hq100 : 100 ≤ q) (hm : m < fuel) :
    Event.call (Call.alerts f.target) ∈ (activeScan fuel f e label done serving).trace := by
  rcases activeScan_cases fuel f e label done serving with
    ⟨_, hlive⟩ | ⟨_, _, _, _, _, _, _, _, _, htrace, _⟩
  · exact absurd hm (hlive aid m q ha haid hb hq hq100)
  · obtain ⟨rest, hrest, _⟩ := collect_trace_head f e done serving
    rw [htrace, hrest]
    simp

/-- Claim C3.  In both modes, whatever the engine replies and however long
the run is followed: `FetchAlerts` (the step from ActiveScanning to Collecting)
occurs at most once in the trace, and where it occurs it comes right after
`m + 1` whole rounds of active-scan polling of which the first `m` read
progress below 100 and the last read 100 or more; it does occur once the
active-scan progress reaches 100 within the polls the run is followed for; and
from `StartActiveScan` on the two modes make the same engine calls. -/
theorem collecting_entered_once (fuel : Nat) (f : Flags) (e : Engine) :
    CollectsAfter100 f e (scanner fuel f e).trace ∧
    CollectsAfter100 f e (apiScanner fuel f e).trace ∧
    (∀ sid n p aid m q, e.newClient = none → (e.spiderScan f.target).err = none →
      assertString (index (e.spiderScan f.target).resp "scan") = some sid →
      Below (e.spiderStatus sid) 0 n → progressOf (e.spiderStatus sid n) = some p →
      100 ≤ p → n < fuel → (e.ascanScan f.target).err = none →
      assertString (index (e.ascanScan f.target).resp "scan") = some aid →
      Below (e.ascanStatus aid) 0 m → progressOf (e.ascanStatus aid m) = some q →
      100 ≤ q → m < fuel →
      Event.call (Call.alerts f.target) ∈ (scanner fuel f e).trace) ∧
    (∀ aid m q, e.newClient = none → (e.importUrl f.openapiURL f.target).err = none →
      (e.urls f.target).err = none → (e.ascanScan f.target).err = none →
      assertString (index (e.ascanScan f.target).resp "scan") = some aid →
      Below (e.ascanStatus aid) 0 m → progressOf (e.ascanStatus aid m) = some q →
      100 ≤ q → m < fuel →
      Event.call (Call.alerts f.target) ∈ (apiScanner fuel f e).trace) ∧
    (∀ pre post pre1 post1,
      (scanner fuel f e).trace = pre ++ Event.call (Call.ascanScan f.target) :: post →
      (apiScanner fuel f e).trace = pre1 ++ Event.call (Call.ascanScan f.target) :: post1 →
      engineCalls post = engineCalls post1) := by
  rcases scanner_cases fuel f e with
    ⟨_, hnoa, hnoal, hlive⟩ | ⟨sid, n, p, hc, hs, hsid, hb, hp, hp100, hn, htrace, _⟩
  · rcases apiScanner_cases fuel f e with
      ⟨hnoal1, hnoa1, hlive1⟩ | ⟨init1, hc1, hi1, hu1, htrace1, hinit1, hinita1, _⟩
    · refine ⟨?_, ?_, ?_, ?_, ?_⟩
      · intro pre post h
        exact absurd (by rw [h]; simp) (hnoal f.target)
      · intro pre post h
        exact absurd (by rw [h]; simp) (hnoal1 f.target)
      · intro sid n p aid m q hc hs hsid hb hp hp100 hn _ _ _ _ _ _
        exact absurd hn (hlive sid n p hc hs hsid hb hp hp100)
      · intro aid m q hc hi hu _ _ _ _ _ _
        exact absurd ⟨hc, hi, hu⟩ hlive1
      · intro pre post pre1 post1 h
        exact absurd (by rw [h]; simp) (hnoa f.target)
    · refine ⟨?_, ?_, ?_, ?_, ?_⟩
      · intro pre post h
        exact absurd (by rw [h]; simp) (hnoal f.target)
      · rw [htrace1]
        exact activeScan_collects fuel f e _ _ _ init1 (hinit1 f.target)
      · intro sid n p aid m q hc hs hsid hb hp hp100 hn _ _ _ _ _ _
        exact absurd hn (hlive sid n p hc hs hsid hb hp hp100)
      · intro aid m q _ _ _ ha haid hb hq hq100 hm
        rw [htrace1]
        exact List.mem_append_right _
          (activeScan_reaches fuel f e _ _ _ aid m q ha haid hb hq hq100 hm)
      · intro pre post pre1 post1 h
        exact absurd (by rw [h]; simp) (hnoa f.target)
  · have hinit : ∀ ev : Event, ev ≠ Event.sleep 1000 → ev ≠ Event.sleep 2000 →
        (∀ t, ev ≠ Event.call (Call.spiderStatus t)) →
        (∀ t, ev ≠ Event.call (Call.spiderScan t)) → (∀ t, ev ≠ Event.println t) →
        (∀ l q, ev ≠ Event.printProgress l q) →
        ev ∉ ([Event.println ("Spider : " ++ f.target), Event.call (Call.spiderScan f.target)] ++
          pollSteps 1000 (Call.spiderStatus sid) (e.spiderStatus sid) none (n + 1) 0 ++
          [Event.println "Spider complete"]) ++
          [Event.sleep 2000, Event.println ("Active scan : " ++ f.target)] := by
      intro ev h1 h1' h2 h3 h4 h5 hm
      simp only [List.mem_append, List.mem_cons, List.mem_singleton, List.not_mem_nil,
        or_false] at hm
      rcases hm with ((((hm | hm) | hm) | hm) | (hm | hm))
      · exact h4 _ hm
      · exact h3 _ hm
      · exact not_mem_pollSteps _ _ _ _ _ h1 (h2 _) h5 _ _ hm
      · exact h4 _ hm
      · exact h1' hm
      · exact h4 _ hm
    have htrace2 : (scanner fuel f e).trace =
        (([Event.println ("Spider : " ++ f.target), Event.call (Call.spiderScan f.target)] ++
          pollSteps 1000 (Call.spiderStatus sid) (e.spiderStatus sid) none (n + 1) 0 ++
          [Event.println "Spider complete"]) ++
          [Event.sleep 2000, Event.println ("Active scan : " ++ f.target)]) ++
        (activeScan fuel f e "Active Scan progress" "Active Scan complete" true).trace := by
      rw [htrace]; simp
    have hC : CollectsAfter100 f e (scanner fuel f e).trace := by
      rw [htrace2]
      exact activeScan_collects fuel f e _ _ _ _
        (hinit _ (by simp) (by simp) (by simp) (by simp) (by simp) (by simp))
    have hL : ∀ sid n p aid m q, e.newClient = none → (e.spiderScan f.target).err = none →
        assertString (index (e.spiderScan f.target).resp "scan") = some sid →
        Below (e.spiderStatus sid) 0 n → progressOf (e.spiderStatus sid n) = some p →
        100 ≤ p → n < fuel → (e.ascanScan f.target).err = none →
        assertString (index (e.ascanScan f.target).resp "scan") = some aid →
        Below (e.ascanStatus aid) 0 m → progressOf (e.ascanStatus aid m) = some q →
        100 ≤ q → m < fuel →
        Event.call (Call.alerts f.target) ∈ (scanner fuel f e).trace := by
      intro _ _ _ aid m q _ _ _ _ _ _ _ ha haid hb hq hq100 hm
      rw [htrace2]
      exact List.mem_append_right _
        (activeScan_reaches fuel f e _ _ _ aid m q ha haid hb hq hq100 hm)
    rcases apiScanner_cases fuel f e with
      ⟨hnoal1, hnoa1, hlive1⟩ | ⟨init1, hc1, hi1, hu1, htrace1, hinit1, hinita1, _⟩
    · refine ⟨hC, ?_, hL, ?_, ?_⟩
      · intro pre post h
        exact absurd (by rw [h]; simp) (hnoal1 f.target)
      · intro aid m q hc hi hu _ _ _ _ _ _
        exact absurd ⟨hc, hi, hu⟩ hlive1
      · intro pre post pre1 post1 _ h
        exact absurd (by rw [h]; simp) (hnoa1 f.target)
    · refine ⟨hC, ?_, hL, ?_, ?_⟩
      · rw [htrace1]
        exact activeScan_collects fuel f e _ _ _ init1 (hinit1 f.target)
      · intro aid m q _ _ _ ha haid hb hq hq100 hm
        rw [htrace1]
        exact List.mem_append_right _
          (activeScan_reaches fuel f e _ _ _ aid m q ha haid hb hq hq100 hm)
      · intro pre post pre1 post1 h h1
        obtain ⟨rest, hrest, hnoa, _⟩ := activeScan_trace_head fuel f e
          "Active Scan progress" "Active Scan complete" true
        obtain ⟨rest1, hrest1, hnoa1, _⟩ := activeScan_trace_head fuel f e
          "Active API Scan progress" "Active API Scan complete" false
        have hcalls := engineCalls_activeScan fuel f e "Active Scan progress"
          "Active Scan complete" "Active API Scan progress" "Active API Scan complete" true false
        rw [hrest, hrest1] at hcalls
        rw [htrace2, hrest] at h
        rw [htrace1, hrest1] at h1
        obtain ⟨_, hpost⟩ := split_unique _ _ rest
          (hinit _ (by simp) (by simp) (by simp) (by simp) (by simp) (by simp))
          (hnoa f.target) pre post h
        obtain ⟨_, hpost1⟩ := split_unique _ _ rest1 (hinita1 f.target) (hnoa1 f.target)
          pre1 post1 h1
        rw [hpost, hpost1]
        simpa [engineCalls] using hcalls

end Scanner

namespace Scanner

/-- In the scenario run `FetchAlerts` is called, once, and only with fuel for
the third active-scan poll. -/
theorem collecting_entered_once_witness :
    Event.call (Call.alerts demoFlags.target) ∈ (scanner 3 demoFlags demoEngine).trace ∧
      Event.call (Call.alerts demoFlags.target) ∈ (apiScanner 3 demoFlags demoEngine).trace ∧
      (scanner 3 demoFlags demoEngine).trace.count (Event.call (Call.alerts "http://t")) = 1 ∧
      Event.call (Call.alerts "http://t") ∉ (apiScanner 2 demoFlags demoEngine).trace :=
  ⟨(collecting_entered_once 3 demoFlags demoEngine).2.2.1 "0" 2 100 "1" 2 100 rfl rfl rfl
      demo_spider_below (by decide) (by decide) (by decide) rfl rfl demo_ascan_below
      (by decide) (by decide) (by decide),
    (collecting_entered_once 3 demoFlags demoEngine).2.2.2.1 "1" 2 100 rfl rfl rfl rfl rfl
      demo_ascan_below (by decide) (by decide) (by decide),
    by decide, by decide⟩

/-! ## Errors of the status calls -/

/-- The loop looks at a status reply through `progressOf` only. -/
theorem poll_congr (ms : Nat) (c : Call) (st1 st2 : Nat → Reply) (label : Option String)
    (h : ∀ k, progressOf (st1 k) = progressOf (st2 k)) :
    ∀ fuel k, poll ms c st1 label fuel k = poll ms c st2 label fuel k := by
  intro fuel
  induction fuel with
  | zero => intro k; rfl
  | succ fuel ih =>
    intro k
    simp only [poll, h k, ih (k + 1)]

/-- The error of a status call has no effect on either run: an engine whose
status calls fail behaves, for the analyzer, like one whose calls succeed with
the same maps. -/
theorem status_errors_have_no_effect (fuel : Nat) (f : Flags) (e : Engine) :
    scanner fuel f (withoutStatusErrors e) = scanner fuel f e ∧
      apiScanner fuel f (withoutStatusErrors e) = apiScanner fuel f e := by
  have hs : ∀ id fuel, poll 1000 (Call.spiderStatus id) ((withoutStatusErrors e).spiderStatus id)
      none fuel 0 = poll 1000 (Call.spiderStatus id) (e.spiderStatus id) none fuel 0 :=
    fun id fuel => poll_congr 1000 (Call.spiderStatus id)
      ((withoutStatusErrors e).spiderStatus id) (e.spiderStatus id) none (fun _ => rfl) fuel 0
  have ha : ∀ id l fuel, poll 5000 (Call.ascanStatus id) ((withoutStatusErrors e).ascanStatus id)
      l fuel 0 = poll 5000 (Call.ascanStatus id) (e.ascanStatus id) l fuel 0 :=
    fun id l fuel => poll_congr 5000 (Call.ascanStatus id)
      ((withoutStatusErrors e).ascanStatus id) (e.ascanStatus id) l (fun _ => rfl) fuel 0
  have hact : ∀ l d s, activeScan fuel f (withoutStatusErrors e) l d s = activeScan fuel f e l d s := by
    intro l d s
    unfold activeScan
    simp only [ha]
    rfl
  constructor
  · unfold scanner
    simp only [hs, hact]
    rfl
  · unfold apiScanner
    simp only [hact]
    rfl

/-- Claim C4, at the failing input: every spider status call fails with
`connection refused` and the nil map.  The run does not end fatally with that
error: it panics at the type assertion on the first poll.  Likewise for the
active-scan status calls in both modes. -/
theorem status_error_not_reported :
    scanner 5 demoFlags spiderStatusFails =
        ⟨[Event.println "Spider : http://t", Event.call (Call.spiderScan "http://t"),
            Event.sleep 1000, Event.call (Call.spiderStatus "0")],
          some Outcome.panicked⟩ ∧
      (scanner 5 demoFlags spiderStatusFails).result ≠
        some (Outcome.fatal "connection refused") ∧
      (scanner 5 demoFlags ascanStatusFails).result = some Outcome.panicked ∧
      (apiScanner 5 demoFlags ascanStatusFails).result = some Outcome.panicked := by
  decide

end Scanner

namespace Scanner

/-! ## Polling without end -/

theorem stuckSpider_below (fuel : Nat) : Below (stuckSpider.spiderStatus "0") 0 fuel := by
  intro j _
  have h : progressOf (statusReply "0") = some 0 := by decide
  exact ⟨0, h, by decide⟩

/-- Claim C5, counterexample.  The spider of this engine stays at progress 0.
The run takes no cancellation signal, so none can end it: however many polls it
is followed for, it has no outcome yet (in particular no Cancelled one). -/
theorem no_cancellation_counterexample :
    ¬ ∃ fuel, (scanner fuel demoFlags stuckSpider).result ≠ none := by
  rintro ⟨fuel, h⟩
  apply h
  have hpoll := poll_pending 1000 (Call.spiderStatus "0") (stuckSpider.spiderStatus "0") none
    fuel 0 (stuckSpider_below fuel)
  have hc : stuckSpider.newClient = none := rfl
  have hs : (stuckSpider.spiderScan demoFlags.target).err = none := rfl
  have hsid : assertString (index (stuckSpider.spiderScan demoFlags.target).resp "scan") =
      some "0" := by decide
  simp [scanner, hc, hs, hsid, hpoll]

/-- Claim C5, as amended.  A polling phase goes on for as long as every
progress value read is below 100: after `fuel` polls the run has no outcome and
has made exactly `fuel` status calls in that phase.  This holds for the spider
phase of the crawl-driven run, for its active phase, and for the active phase
of the specification-driven run. -/
theorem polling_goes_on_below_100 (fuel : Nat) (f : Flags) (e : Engine) :
    (∀ sid, e.newClient = none → (e.spiderScan f.target).err = none →
      assertString (index (e.spiderScan f.target).resp "scan") = some sid →
      Below (e.spiderStatus sid) 0 fuel →
      (scanner fuel f e).result = none ∧
      engineCalls (scanner fuel f e).trace =
        Call.spiderScan f.target :: List.replicate fuel (Call.spiderStatus sid)) ∧
    (∀ sid n p aid, e.newClient = none → (e.spiderScan f.target).err = none →
      assertString (index (e.spiderScan f.target).resp "scan") = some sid →
      Below (e.spiderStatus sid) 0 n → progressOf (e.spiderStatus sid n) = some p →
      100 ≤ p → n < fuel → (e.ascanScan f.target).err = none →
      assertString (index (e.ascanScan f.target).resp "scan") = some aid →
      Below (e.ascanStatus aid) 0 fuel →
      (scanner fuel f e).result = none ∧
      engineCalls (scanner fuel f e).trace =
        Call.spiderScan f.target :: List.replicate (n + 1) (Call.spiderStatus sid) ++
          Call.ascanScan f.target :: List.replicate fuel (Call.ascanStatus aid)) ∧
    (∀ aid, e.newClient = none → (e.importUrl f.openapiURL f.target).err = none →
      (e.urls f.target).err = none → (e.ascanScan f.target).err = none →
      assertString (index (e.ascanScan f.target).resp "scan") = some aid →
      Below (e.ascanStatus aid) 0 fuel →
      (apiScanner fuel f e).result = none ∧
      (engineCalls (apiScanner fuel f e).trace).count (Call.ascanStatus aid) = fuel) := by
  have hact : ∀ aid label done serving, (e.ascanScan f.target).err = none →
      assertString (index (e.ascanScan f.target).resp "scan") = some aid →
      Below (e.ascanStatus aid) 0 fuel →
      (activeScan fuel f e label done serving).result = none ∧
      engineCalls (activeScan fuel f e label done serving).trace =
        Call.ascanScan f.target :: List.replicate fuel (Call.ascanStatus aid) := by
    intro aid label done serving ha haid hb
    have hpoll := poll_pending 5000 (Call.ascanStatus aid) (e.ascanStatus aid) (some label)
      fuel 0 hb
    constructor
    · simp [activeScan, ha, haid, hpoll]
    · simp only [activeScan, ha, haid, hpoll, engineCalls_append, engineCalls_pollSteps]
      simp [engineCalls]
  refine ⟨?_, ?_, ?_⟩
  · intro sid hc hs hsid hb
    have hpoll := poll_pending 1000 (Call.spiderStatus sid) (e.spiderStatus sid) none fuel 0 hb
    constructor
    · simp [scanner, hc, hs, hsid, hpoll]
    · simp only [scanner, hc, hs, hsid, hpoll, engineCalls_append, engineCalls_pollSteps]
      simp [engineCalls]
  · intro sid n p aid hc hs hsid hb hp hp100 hn ha haid hb1
    have hpoll := poll_exits 1000 (Call.spiderStatus sid) (e.spiderStatus sid) none
      n fuel 0 p hn hb (by simpa using hp) hp100
    obtain ⟨hres, hcalls⟩ := hact aid "Active Scan progress" "Active Scan complete" true
      ha haid hb1
    constructor
    · simp [scanner, hc, hs, hsid, hpoll, hres]
    · simp only [scanner, hc, hs, hsid, hpoll, engineCalls_append, engineCalls_pollSteps,
        hcalls]
      simp [engineCalls]
  · intro aid hc hi hu ha haid hb
    obtain ⟨hres, hcalls⟩ := hact aid "Active API Scan progress" "Active API Scan complete"
      false ha haid hb
    constructor
    · simp [apiScanner, hc, hi, hu, hres]
    · simp only [apiScanner, hc, hi, hu]
      split <;>
        (simp only [engineCalls_append, hcalls]
         simp [engineCalls, scripts, List.count_cons, List.count_replicate])

/-- With the spider stuck at 0 the run followed for nine polls has made nine
status calls and has no outcome. -/
theorem polling_goes_on_below_100_witness :
    (scanner 9 demoFlags stuckSpider).result = none ∧
      engineCalls (scanner 9 demoFlags stuckSpider).trace =
        Call.spiderScan demoFlags.target :: List.replicate 9 (Call.spiderStatus "0") :=
  (polling_goes_on_below_100 9 demoFlags stuckSpider).1 "0" rfl rfl (by decide)
    (stuckSpider_below 9)

end Scanner

namespace Scanner

/-! ## An import that finds no URL -/

/-- Claim C7, counterexample.  The same engine with and without URLs for the
target: both specification-driven runs end Done with the same alerts and the
same summary. -/
theorem zero_urls_counterexample :
    (apiScanner 3 demoFlags noUrls).result = (apiScanner 3 demoFlags demoEngine).result ∧
      (apiScanner 3 demoFlags noUrls).result =
        some (Outcome.done [[("risk", Value.str "High")], [("risk", Value.str "Medium")]]
          [("High", Value.num 1), ("Medium", Value.num 1)]) := by
  decide

/-- Claim C7, as amended.  A specification-driven run for which the engine
reports no URL differs from the run with the same engine replies and a
non-empty URL list by one logged line, `Failed to import any URLs`, written
right after the `Urls` call: the outcome is the same and so are the engine
calls. -/
theorem zero_urls_only_logged (fuel : Nat) (f : Flags) (e : Engine) (us : List String)
    (hus : us ≠ []) :
    (apiScanner fuel f (withUrls e [])).result = (apiScanner fuel f (withUrls e us)).result ∧
      engineCalls (apiScanner fuel f (withUrls e [])).trace =
        engineCalls (apiScanner fuel f (withUrls e us)).trace ∧
      (apiScanner fuel f (withUrls e [])).trace.erase
          (Event.logPrint "Failed to import any URLs") =
        (apiScanner fuel f (withUrls e us)).trace ∧
      (e.newClient = none → (e.importUrl f.openapiURL f.target).err = none →
        Event.logPrint "Failed to import any URLs" ∈ (apiScanner fuel f (withUrls e [])).trace) := by
  have hact : ∀ (vs : List String) l d s,
      activeScan fuel f (withUrls e vs) l d s = activeScan fuel f e l d s := fun _ _ _ _ => rfl
  have hlen : ¬ us.length = 0 := by
    intro h
    exact hus (List.length_eq_zero.1 h)
  rcases hc : e.newClient with _ | err
  · rcases hi : (e.importUrl f.openapiURL f.target).err with _ | err
    · have hc0 : ∀ vs, (withUrls e vs).newClient = none := fun _ => hc
      have hi0 : ∀ vs, ((withUrls e vs).importUrl f.openapiURL f.target).err = none :=
        fun _ => hi
      have hu0 : ∀ vs, ((withUrls e vs).urls f.target) = ⟨vs, none⟩ := fun _ => rfl
      refine ⟨?_, ?_, ?_, ?_⟩
      · simp [apiScanner, hc0, hi0, hu0, hact]
      · simp [apiScanner, hc0, hi0, hu0, hact, hlen, engineCalls_append, engineCalls, scripts]
      · simp only [apiScanner, hc0, hi0, hu0, hact, hlen, List.length_nil, if_true, if_false]
        simp [scripts, List.erase_cons]
      · intro _ _
        simp [apiScanner, hc0, hi0, hu0]
    · have hc0 : ∀ vs, (withUrls e vs).newClient = none := fun _ => hc
      have hi0 : ∀ vs, ((withUrls e vs).importUrl f.openapiURL f.target).err = some err :=
        fun _ => hi
      refine ⟨?_, ?_, ?_, ?_⟩
      · simp [apiScanner, hc0, hi0]
      · simp [apiScanner, hc0, hi0]
      · simp [apiScanner, hc0, hi0, scripts, List.erase_cons]
      · intro _ h
        simp at h
  · have hc0 : ∀ vs, (withUrls e vs).newClient = some err := fun _ => hc
    refine ⟨?_, ?_, ?_, ?_⟩
    · simp [apiScanner, hc0]
    · simp [apiScanner, hc0]
    · simp [apiScanner, hc0]
    · intro h
      simp at h

/-- For the scenario engine: no URL and one URL give the same outcome, and the
run without URLs has the logged line. -/
theorem zero_urls_only_logged_witness :
    (apiScanner 3 demoFlags (withUrls demoEngine [])).result =
        (apiScanner 3 demoFlags (withUrls demoEngine ["http://t/a"])).result ∧
      Event.logPrint "Failed to import any URLs" ∈
        (apiScanner 3 demoFlags (withUrls demoEngine [])).trace :=
  ⟨(zero_urls_only_logged 3 demoFlags demoEngine ["http://t/a"] (by decide)).1,
    (zero_urls_only_logged 3 demoFlags demoEngine ["http://t/a"] (by decide)).2.2.2 rfl rfl⟩

end Scanner

namespace Scanner

/-! ## Replies that do not decode -/

/-- A syntax error of the fast path comes with the value 0. -/
theorem atoiFast_syntax (s : List Char) (h : (atoiFast s).2 = NumError.syntaxErr) :
    (atoiFast s).1 = 0 := by
  cases s with
  | nil => rfl
  | cons c cs =>
    simp only [atoiFast] at h ⊢
    generalize (if c = '-' ∨ c = '+' then cs else c :: cs) = body at h ⊢
    by_cases hcond : (c = '-' ∨ c = '+') ∧ body.length < 1
    · rw [if_pos hcond]
    · rw [if_neg hcond] at h ⊢
      generalize List.foldl (fun (acc : Option Nat) ch =>
        acc.bind (fun n => (digitVal ch).map (fun d => n * 10 + d))) (some 0) body = r at h ⊢
      cases r with
      | none => rfl
      | some n => simp at h

/-- A syntax error of `ParseInt` comes with the value 0. -/
theorem ParseInt_syntax (s : List Char) (h : (ParseInt s).2 = NumError.syntaxErr) :
    (ParseInt s).1 = 0 := by
  cases s with
  | nil => rfl
  | cons c cs =>
    simp only [ParseInt] at h ⊢
    generalize ParseUint (if c = '+' ∨ c = '-' then cs else c :: cs) = r at h ⊢
    rcases r with ⟨un, err⟩
    cases err with
    | syntaxErr => rfl
    | none =>
      simp only at h
      split_ifs at h
    | rangeErr =>
      simp only at h
      split_ifs at h

/-- A status string that `strconv.Atoi` rejects as not a number converts to 0. -/
theorem Atoi_syntax (s : String) (h : (Atoi s).2 = NumError.syntaxErr) : (Atoi s).1 = 0 := by
  unfold Atoi at h ⊢
  split
  · rename_i hc
    rw [if_pos hc] at h
    exact atoiFast_syntax _ h
  · rename_i hc
    rw [if_neg hc] at h
    exact ParseInt_syntax _ h

/-- Claim C10, counterexample.  A spider start reply without a `scan` field
ends the run in a runtime panic, and a spider status `n/a` is read as progress
0: the run polls again and goes on to Done. -/
theorem decoding_counterexample :
    scanner 3 demoFlags noScanId =
        ⟨[Event.println "Spider : http://t", Event.call (Call.spiderScan "http://t")],
          some Outcome.panicked⟩ ∧
      progressOf (garbledStatus.spiderStatus "0" 0) = some 0 ∧
      (scanner 3 demoFlags garbledStatus).result =
        some (Outcome.done [[("risk", Value.str "High")], [("risk", Value.str "Medium")]]
          [("High", Value.num 1), ("Medium", Value.num 1)]) := by
  decide

/-- The fast path of `strconv.Atoi` never reports a range error. -/
theorem atoiFast_range (s : List Char) : (atoiFast s).2 ≠ NumError.rangeErr := by
  cases s with
  | nil => simp [atoiFast]
  | cons c cs =>
    simp only [atoiFast]
    generalize (if c = '-' ∨ c = '+' then cs else c :: cs) = body
    by_cases hcond : (c = '-' ∨ c = '+') ∧ body.length < 1
    · rw [if_pos hcond]; simp
    · rw [if_neg hcond]
      generalize List.foldl (fun (acc : Option Nat) ch =>
        acc.bind (fun n => (digitVal ch).map (fun d => n * 10 + d))) (some 0) body = r
      cases r <;> simp

/-- A range error of `ParseInt` comes with the largest or the smallest
`int64`. -/
theorem ParseInt_range (s : List Char) (h : (ParseInt s).2 = NumError.rangeErr) :
    (ParseInt s).1 = 2 ^ 63 - 1 ∨ (ParseInt s).1 = -2 ^ 63 := by
  cases s with
  | nil => simp [ParseInt] at h
  | cons c cs =>
    simp only [ParseInt] at h ⊢
    generalize ParseUint (if c = '+' ∨ c = '-' then cs else c :: cs) = r at h ⊢
    rcases r with ⟨un, err⟩
    cases err with
    | syntaxErr => simp at h
    | none =>
      simp only at h ⊢
      split_ifs at h ⊢ <;> simp at h ⊢
    | rangeErr =>
      simp only at h ⊢
      split_ifs at h ⊢ <;> simp at h ⊢

/-- A status string that `strconv.Atoi` reports out of range converts to the
largest or the smallest `int64`. -/
theorem Atoi_range (s : String) (h : (Atoi s).2 = NumError.rangeErr) :
    (Atoi s).1 = 2 ^ 63 - 1 ∨ (Atoi s).1 = -2 ^ 63 := by
  unfold Atoi at h ⊢
  split
  · rename_i hc
    rw [if_pos hc] at h
    exact absurd h (atoiFast_range _)
  · rename_i hc
    rw [if_neg hc] at h
    exact ParseInt_range _ h

/-- The active phase with a start reply that has no string `scan` field. -/
theorem activeScan_no_id (fuel : Nat) (f : Flags) (e : Engine) (label done : String)
    (serving : Bool) (ha : (e.ascanScan f.target).err = none)
    (haid : assertString (index (e.ascanScan f.target).resp "scan") = none) :
    activeScan fuel f e label done serving =
      ⟨[Event.call (Call.ascanScan f.target)], some Outcome.panicked⟩ := by
  simp [activeScan, ha, haid]

/-- The active phase with a status reply that has no string `status` field at
poll `m`, after `m` polls below 100. -/
theorem activeScan_bad_status (fuel : Nat) (f : Flags) (e : Engine) (label done : String)
    (serving : Bool) (aid : String) (m : Nat)
    (ha : (e.ascanScan f.target).err = none)
    (haid : assertString (index (e.ascanScan f.target).resp "scan") = some aid)
    (hb : Below (e.ascanStatus aid) 0 m)
    (hst : assertString (index (e.ascanStatus aid m).resp "status") = none) (hm : m < fuel) :
    (activeScan fuel f e label done serving).result = some Outcome.panicked ∧
      engineCalls (activeScan fuel f e label done serving).trace =
        Call.ascanScan f.target :: List.replicate (m + 1) (Call.ascanStatus aid) := by
  have hp : progressOf (e.ascanStatus aid (0 + m)) = none := by
    simp [progressOf, hst]
  have hpoll := poll_panics 5000 (Call.ascanStatus aid) (e.ascanStatus aid) (some label)
    m fuel 0 hm hb hp
  constructor
  · simp [activeScan, ha, haid, hpoll]
  · simp only [activeScan, ha, haid, hpoll, engineCalls_append, engineCalls_pollSteps]
    simp [engineCalls]

/-- Claim C10, as amended.  The run is a total function of the engine's
replies and has no decoding error among its outcomes.  A start reply without
a string `scan` field ends the run in a runtime panic right after the start
call: the spider start and the active-scan start of the crawl-driven run
(parts 1 and 2), the active-scan start of the specification-driven run (part
3).  A status reply without a string `status` field ends the run in a runtime
panic right after that poll: spider status and active-scan status of the
crawl-driven run (parts 4 and 5), active-scan status of the
specification-driven run (part 6).  A `status` string is read as the value
`strconv.Atoi` returns, its error being dropped: 0 when `Atoi` reports a syntax
error (part 7), the largest or the smallest `int64` when it reports the number
out of range (part 8); on a syntax error the loop, which all three phases
share, takes another round (part 9). -/
theorem undecodable_replies (fuel : Nat) (f : Flags) (e : Engine) :
    (e.newClient = none → (e.spiderScan f.target).err = none →
      assertString (index (e.spiderScan f.target).resp "scan") = none →
      scanner fuel f e =
        ⟨[Event.println ("Spider : " ++ f.target), Event.call (Call.spiderScan f.target)],
          some Outcome.panicked⟩) ∧
    (∀ sid n p, e.newClient = none → (e.spiderScan f.target).err = none →
      assertString (index (e.spiderScan f.target).resp "scan") = some sid →
      Below (e.spiderStatus sid) 0 n → progressOf (e.spiderStatus sid n) = some p →
      100 ≤ p → n < fuel → (e.ascanScan f.target).err = none →
      assertString (index (e.ascanScan f.target).resp "scan") = none →
      (scanner fuel f e).result = some Outcome.panicked ∧
      engineCalls (scanner fuel f e).trace =
        Call.spiderScan f.target :: List.replicate (n + 1) (Call.spiderStatus sid) ++
          [Call.ascanScan f.target]) ∧
    (e.newClient = none → (e.importUrl f.openapiURL f.target).err = none →
      (e.urls f.target).err = none → (e.ascanScan f.target).err = none →
      assertString (index (e.ascanScan f.target).resp "scan") = none →
      (apiScanner fuel f e).result = some Outcome.panicked ∧
      ∀ id, Call.ascanStatus id ∉ engineCalls (apiScanner fuel f e).trace) ∧
    (∀ sid n, e.newClient = none → (e.spiderScan f.target).err = none →
      assertString (index (e.spiderScan f.target).resp "scan") = some sid →
      Below (e.spiderStatus sid) 0 n →
      assertString (index (e.spiderStatus sid n).resp "status") = none → n < fuel →
      (scanner fuel f e).result = some Outcome.panicked ∧
      engineCalls (scanner fuel f e).trace =
        Call.spiderScan f.target :: List.replicate (n + 1) (Call.spiderStatus sid)) ∧
    (∀ sid n p aid m, e.newClient = none → (e.spiderScan f.target).err = none →
      assertString (index (e.spiderScan f.target).resp "scan") = some sid →
      Below (e.spiderStatus sid) 0 n → progressOf (e.spiderStatus sid n) = some p →
      100 ≤ p → n < fuel → (e.ascanScan f.target).err = none →
      assertString (index (e.ascanScan f.target).resp "scan") = some aid →
      Below (e.ascanStatus aid) 0 m →
      assertString (index (e.ascanStatus aid m).resp "status") = none → m < fuel →
      (scanner fuel f e).result = some Outcome.panicked ∧
      engineCalls (scanner fuel f e).trace =
        Call.spiderScan f.target :: List.replicate (n + 1) (Call.spiderStatus sid) ++
          Call.ascanScan f.target :: List.replicate (m + 1) (Call.ascanStatus aid)) ∧
    (∀ aid m, e.newClient = none → (e.importUrl f.openapiURL f.target).err = none →
      (e.urls f.target).err = none → (e.ascanScan f.target).err = none →
      assertString (index (e.ascanScan f.target).resp "scan") = some aid →
      Below (e.ascanStatus aid) 0 m →
      assertString (index (e.ascanStatus aid m).resp "status") = none → m < fuel →
      (apiScanner fuel f e).result = some Outcome.panicked ∧
      (engineCalls (apiScanner fuel f e).trace).count (Call.ascanStatus aid) = m + 1) ∧
    (∀ (r : Reply) (s : String), index r.resp "status" = some (Value.str s) →
      (Atoi s).2 = NumError.syntaxErr → progressOf r = some 0) ∧
    (∀ (r : Reply) (s : String), index r.resp "status" = some (Value.str s) →
      (Atoi s).2 = NumError.rangeErr →
      progressOf r = some (2 ^ 63 - 1) ∨ progressOf r = some (-2 ^ 63)) ∧
    (∀ (ms : Nat) (c : Call) (status : Nat → Reply) (label : Option String) (k : Nat) (s : String),
      index (status k).resp "status" = some (Value.str s) →
      (Atoi s).2 = NumError.syntaxErr →
      (poll ms c status label (fuel + 1) k).2 = (poll ms c status label fuel (k + 1)).2 ∧
      engineCalls (poll ms c status label (fuel + 1) k).1 =
        c :: engineCalls (poll ms c status label fuel (k + 1)).1) := by
  have hzero : ∀ (r : Reply) (s : String), index r.resp "status" = some (Value.str s) →
      (Atoi s).2 = NumError.syntaxErr → progressOf r = some 0 := by
    intro r s hr hs
    simp [progressOf, hr, assertString, Atoi_syntax s hs]
  refine ⟨?_, ?_, ?_, ?_, ?_, ?_, hzero, ?_, ?_⟩
  · intro hc hs hsid
    simp [scanner, hc, hs, hsid]
  · intro sid n p hc hs hsid hb hp hp100 hn ha haid
    have hpoll := poll_exits 1000 (Call.spiderStatus sid) (e.spiderStatus sid) none
      n fuel 0 p hn hb (by simpa using hp) hp100
    have hact := activeScan_no_id fuel f e "Active Scan progress" "Active Scan complete" true
      ha haid
    constructor
    · simp [scanner, hc, hs, hsid, hpoll, hact]
    · simp only [scanner, hc, hs, hsid, hpoll, hact, engineCalls_append, engineCalls_pollSteps]
      simp [engineCalls]
  · intro hc hi hu ha haid
    have hact := activeScan_no_id fuel f e "Active API Scan progress"
      "Active API Scan complete" false ha haid
    constructor
    · simp [apiScanner, hc, hi, hu, hact]
    · intro id
      simp only [apiScanner, hc, hi, hu, hact]
      split <;> simp [engineCalls_append, engineCalls, scripts]
  · intro sid n hc hs hsid hb hst hn
    have hp : progressOf (e.spiderStatus sid (0 + n)) = none := by
      simp [progressOf, hst]
    have hpoll := poll_panics 1000 (Call.spiderStatus sid) (e.spiderStatus sid) none n fuel 0
      hn hb hp
    constructor
    · simp [scanner, hc, hs, hsid, hpoll]
    · simp only [scanner, hc, hs, hsid, hpoll, engineCalls_append, engineCalls_pollSteps]
      simp [engineCalls]
  · intro sid n p aid m hc hs hsid hb hp hp100 hn ha haid hb1 hst hm
    have hpoll := poll_exits 1000 (Call.spiderStatus sid) (e.spiderStatus sid) none
      n fuel 0 p hn hb (by simpa using hp) hp100
    obtain ⟨hres, hcalls⟩ := activeScan_bad_status fuel f e "Active Scan progress"
      "Active Scan complete" true aid m ha haid hb1 hst hm
    constructor
    · simp [scanner, hc, hs, hsid, hpoll, hres]
    · simp only [scanner, hc, hs, hsid, hpoll, engineCalls_append, engineCalls_pollSteps,
        hcalls]
      simp [engineCalls]
  · intro aid m hc hi hu ha haid hb hst hm
    obtain ⟨hres, hcalls⟩ := activeScan_bad_status fuel f e "Active API Scan progress"
      "Active API Scan complete" false aid m ha haid hb hst hm
    constructor
    · simp [apiScanner, hc, hi, hu, hres]
    · simp only [apiScanner, hc, hi, hu]
      split <;>
        (simp only [engineCalls_append, hcalls]
         simp [engineCalls, scripts, List.count_cons, List.count_replicate])
  · intro r s hr hs
    rcases Atoi_range s hs with h | h
    · left; simp [progressOf, hr, assertString, h]
    · right; simp [progressOf, hr, assertString, h]
  · intro ms c status label k s hr hs
    have hp := hzero (status k) s hr hs
    cases label <;> simp [poll, hp, engineCalls, engineCalls_append]

/-- The engine whose first spider status is `n/a`: that reply reads as
progress 0; the engine without a scan id makes the run panic; and a status
that overflows before its bad character is read as the largest `int64`, not
as 0. -/
theorem undecodable_replies_witness :
    progressOf (garbledStatus.spiderStatus "0" 0) = some 0 ∧
      scanner 4 demoFlags noScanId =
        ⟨[Event.println ("Spider : " ++ demoFlags.target),
            Event.call (Call.spiderScan demoFlags.target)],
          some Outcome.panicked⟩ ∧
      (progressOf (statusReply "99999999999999999999999a") = some (2 ^ 63 - 1) ∨
        progressOf (statusReply "99999999999999999999999a") = some (-2 ^ 63)) ∧
      Atoi "99999999999999999999999a" = (2 ^ 63 - 1, NumError.rangeErr) :=
  ⟨(undecodable_replies 4 demoFlags garbledStatus).2.2.2.2.2.2.1
      (garbledStatus.spiderStatus "0" 0) "n/a" (by decide) (by decide),
    (undecodable_replies 4 demoFlags noScanId).1 rfl rfl (by decide),
    (undecodable_replies 4 demoFlags demoEngine).2.2.2.2.2.2.2.1
      (statusReply "99999999999999999999999a") "99999999999999999999999a" (by decide)
      (by decide),
    by decide⟩

end Scanner
